import Mathlib

/-!
# Tower of Hanoi game engine (`src/hanoiTower.js`)

A shallow embedding of the class `HanoiTowerGame`: every method becomes a pure
function that takes the object state and returns its result together with the
new state.  JavaScript numbers are modelled as mathematical integers.  Disk
sizes, peg indices and counters stay far below `2^53`, where double arithmetic
is exact; the two minimum-move formulas take an unconstrained argument, so
their arithmetic is rounded to the nearest double (`roundToDouble`).  A call
that throws or never returns has the result `none`: the two recursive methods
carry a bound on the recursion depth, and the solver also the engine's bound on
the arguments of `push(...sub)` (`maxSpreadArguments`).

`updateDisplay` only hands a deep copy of the state to an optional external
callback and `displayGameResult` only prints; neither assigns a field, so
both are the identity on the state and are omitted from the state functions.

The record fields `from` and `to` of the source are called `fromTower` and
`toTower` here (`from` is a reserved word).
-/

namespace HanoiTower

/-! ## Data model -/

/-- The array `this.towers` of three arrays.  Each list runs from the bottom
disk (index 0) to the top disk (last element). -/
structure Towers where
  t0 : List Int
  t1 : List Int
  t2 : List Int
deriving DecidableEq, Repr

/-- Read `towers[i]`.  Every call site is behind the range check of
`isValidMove` (or uses a literal index), so only `0`, `1`, `2` occur. -/
def Towers.get (t : Towers) (i : Int) : List Int :=
  if i = 0 then t.t0 else if i = 1 then t.t1 else if i = 2 then t.t2 else []

/-- Replace the contents of `towers[i]` (the effect of `pop` / `push` on the
inner array).  Only indices `0`, `1`, `2` occur. -/
def Towers.set (t : Towers) (i : Int) (xs : List Int) : Towers :=
  if i = 0 then { t with t0 := xs }
  else if i = 1 then { t with t1 := xs }
  else if i = 2 then { t with t2 := xs }
  else t

/-- One record of `gameHistory`, built in `makeMove`. -/
structure Move where
  moveNumber : Nat
  disk : Int
  fromTower : Int
  toTower : Int
  towers : Towers
deriving DecidableEq, Repr

/-- The fields of a `HanoiTowerGame` object. -/
structure HanoiTowerGame where
  towers : Towers
  numberOfDisks : Int
  moveCount : Nat
  bestScore : Int
  gameHistory : List Move
  isGameComplete : Bool
deriving DecidableEq, Repr

/-- Result object of `isValidMove`: `{ valid: true, disk }` or
`{ valid: false, reason }`. -/
inductive Validation where
  | valid (disk : Int)
  | invalid (reason : String)
deriving DecidableEq, Repr

/-- The `valid` field of a validation result. -/
def Validation.isValid : Validation → Bool
  | .valid _ => true
  | .invalid _ => false

/-- Result object of `makeMove`.  `isComplete` is present only on success. -/
structure MoveResult where
  success : Bool
  message : String
  moveCount : Nat
  isComplete : Option Bool
deriving DecidableEq, Repr

/-- Result object of `setNumberOfDisks`.  The last three fields are present
only on success. -/
structure SetDisksResult where
  success : Bool
  message : String
  minimumMoves : Option Int
  formula : Option String
  difficultyLevel : Option String
deriving DecidableEq, Repr

/-- Result object of `resetGame`. -/
structure ResetResult where
  success : Bool
  message : String
deriving DecidableEq, Repr

/-- One element of the list returned by `getSolution`. -/
structure SolutionMove where
  disk : Int
  fromTower : Int
  toTower : Int
  description : String
deriving DecidableEq, Repr

/-! ## Operations -/

/-- Rounding of the natural number `x` to a multiple of `ulp`, the nearer
one, and on a tie the one with the even quotient. -/
def roundHalfEven (x ulp : Nat) : Nat :=
  let q := x / ulp
  let r := x % ulp
  if 2 * r < ulp then q * ulp
  else if 2 * r > ulp then (q + 1) * ulp
  else if q % 2 = 0 then q * ulp
  else (q + 1) * ulp

/-- Search for the spacing of the doubles around `x`: the spacing is `ulp`
when `x < 2^53 * ulp`, otherwise the search goes on with the doubled spacing.
The first argument bounds the number of doublings. -/
def roundNatToDouble : Nat → Nat → Nat → Nat
  | 0, _, x => x
  | fuel + 1, ulp, x =>
    if x < 2 ^ 53 * ulp then roundHalfEven x ulp else roundNatToDouble fuel (2 * ulp) x

/-- The double nearest to the integer `x` (IEEE 754 binary64, round to nearest,
ties to even), which is the value a JavaScript arithmetic operation with the
exact result `x` returns.  Integers of absolute value below `2^53` are doubles.
Results beyond the largest finite double (about `2^1024`), which JavaScript
turns into `Infinity`, are outside this integer-valued model. -/
def roundToDouble (x : Int) : Int :=
  if x < 0 then -((roundNatToDouble 1024 1 x.natAbs : Nat) : Int)
  else ((roundNatToDouble 1024 1 x.natAbs : Nat) : Int)

/-- Method `calculateMinimumMoves(n)`: `0` for `n <= 0`, else `Math.pow(2, n) - 1`.
The power of two is a double as it stands (for `n <= 1023`); the subtraction
is rounded. -/
def calculateMinimumMoves (n : Int) : Int :=
  if n ≤ 0 then 0 else roundToDouble (2 ^ n.toNat - 1)

/-- The loop `for (let i = numberOfDisks; i >= 1; i--) towers[0].push(i)` of
`initializeGame`, with the loop counter `i` and the array being filled.  The
first argument bounds the number of iterations; `initializeGame` passes
`numberOfDisks.toNat`, which is exactly the number of iterations the loop
makes. -/
def initLoop : Nat → Int → List Int → List Int
  | 0, _, tower => tower
  | fuel + 1, i, tower => if i ≥ 1 then initLoop fuel (i - 1) (tower ++ [i]) else tower

/-- Method `initializeGame()`: empties the towers, counter, history and flag, fills
tower 0 and recomputes `bestScore`. -/
def initializeGame (g : HanoiTowerGame) : HanoiTowerGame :=
  let empty : Towers := ⟨[], [], []⟩
  { towers := { empty with t0 := initLoop g.numberOfDisks.toNat g.numberOfDisks empty.t0 }
    numberOfDisks := g.numberOfDisks
    moveCount := 0
    bestScore := calculateMinimumMoves g.numberOfDisks
    gameHistory := []
    isGameComplete := false }

/-- Method `isValidMove(fromTower, toTower)`: the checks in source order; the top
disk of a tower is its last element, read only after the emptiness check. -/
def isValidMove (g : HanoiTowerGame) (fromTower toTower : Int) : Validation :=
  if fromTower < 0 ∨ fromTower > 2 ∨ toTower < 0 ∨ toTower > 2 then
    .invalid "Torre fuera de rango"
  else if hs : (g.towers.get fromTower).length = 0 then
    .invalid "Torre origen vacía"
  else if fromTower = toTower then
    .invalid "No se puede mover a la misma torre"
  else
    let diskToMove := (g.towers.get fromTower).getLast (fun e => hs (by rw [e]; rfl))
    if hd : (g.towers.get toTower).length = 0 then
      .valid diskToMove
    else
      let topDiskOnDestination :=
        (g.towers.get toTower).getLast (fun e => hd (by rw [e]; rfl))
      if diskToMove < topDiskOnDestination then
        .valid diskToMove
      else
        .invalid ("No se puede poner disco " ++ toString diskToMove ++ " sobre disco "
          ++ toString topDiskOnDestination)

/-- Array method `pop`: the removed last element (absent on an empty
array) and the remaining array. -/
def pop (xs : List Int) : Option Int × List Int :=
  (xs.getLast?, xs.dropLast)

/-- Method `checkGameCompletion()`: reassigns `isGameComplete`. -/
def checkGameCompletion (g : HanoiTowerGame) : HanoiTowerGame :=
  { g with
    isGameComplete :=
      decide (((g.towers.get 1).length : Int) = g.numberOfDisks)
        && decide ((g.towers.get 0).length = 0)
        && decide ((g.towers.get 2).length = 0) }

/-- Method `makeMove(fromTower, toTower)`: the returned object and the new state.
The branch in which `pop` finds the source empty cannot be taken, because the
validator has rejected an empty source before (`makeMove_of_valid`). -/
def makeMove (g : HanoiTowerGame) (fromTower toTower : Int) : MoveResult × HanoiTowerGame :=
  match isValidMove g fromTower toTower with
  | .invalid reason =>
    ({ success := false, message := reason, moveCount := g.moveCount, isComplete := none }, g)
  | .valid _ =>
    match pop (g.towers.get fromTower) with
    | (none, _) =>
      ({ success := false, message := "", moveCount := g.moveCount, isComplete := none }, g)
    | (some disk, rest) =>
      let towers1 := g.towers.set fromTower rest
      let towers2 := towers1.set toTower (towers1.get toTower ++ [disk])
      let moveCount := g.moveCount + 1
      let move : Move :=
        { moveNumber := moveCount, disk := disk, fromTower := fromTower, toTower := toTower
          towers := towers2 }
      let g1 := checkGameCompletion
        { g with towers := towers2, moveCount := moveCount
                 gameHistory := g.gameHistory ++ [move] }
      ({ success := true
         message := "Disco " ++ toString disk ++ " movido de torre " ++ toString (fromTower + 1)
           ++ " a torre " ++ toString (toTower + 1)
         moveCount := g1.moveCount
         isComplete := some g1.isGameComplete }, g1)

/-- The difficulty label computed in `setNumberOfDisks`: four successive
conditional assignments over the default label. -/
def difficultyLevel (movesRequired : Int) : String :=
  let d0 := "Fácil"
  let d1 := if movesRequired > 31 then "Intermedio" else d0
  let d2 := if movesRequired > 127 then "Difícil" else d1
  let d3 := if movesRequired > 511 then "Experto" else d2
  if movesRequired > 2047 then "Maestro" else d3

/-- Method `setNumberOfDisks(n)`: the returned object and the new state. -/
def setNumberOfDisks (g : HanoiTowerGame) (n : Int) : SetDisksResult × HanoiTowerGame :=
  if n < 1 ∨ n > 12 then
    ({ success := false
       message := "Número de discos debe estar entre 1 y 12. Nota: 12 discos requieren 4095 movimientos mínimos."
       minimumMoves := none, formula := none, difficultyLevel := none }, g)
  else
    let g1 := initializeGame { g with numberOfDisks := n }
    let movesRequired := g1.bestScore
    let level := difficultyLevel movesRequired
    ({ success := true
       message := "Juego reiniciado con " ++ toString n ++ " discos - Dificultad: " ++ level
       minimumMoves := some g1.bestScore
       formula := some ("T(" ++ toString n ++ ") = 2^" ++ toString n ++ " - 1 = "
         ++ toString g1.bestScore)
       difficultyLevel := some level }, g1)

/-- Method `resetGame()`: the returned object and the new state. -/
def resetGame (g : HanoiTowerGame) : ResetResult × HanoiTowerGame :=
  ({ success := true, message := "Juego reiniciado" }, initializeGame g)

/-- The largest number of arguments one call can take.  The source appends a
sub-solution with `moves.push(...sub)`, which passes every element of `sub` as
an argument; engines bound that number and throw `RangeError` beyond it.  The
bound is the engine's: `65536` is the fixed bound of JavaScriptCore, and the
default stack of Node accepts the 65535 arguments of the 17-disk call and
rejects the 131071 arguments of the 18-disk call. -/
def maxSpreadArguments : Nat := 65536

/-- Method `getSolution(n, source, destination, auxiliary)` with a bound on the
recursion depth.  The result `none` means that the call returns no value: the
depth bound was exhausted before the base case `n === 1` was reached, or a
`moves.push(...sub)` was given more than `maxSpreadArguments` arguments and
threw. -/
def getSolutionFuel : Nat → Int → Int → Int → Int → Option (List SolutionMove)
  | 0, _, _, _, _ => none
  | fuel + 1, n, source, destination, auxiliary =>
    if n = 1 then
      some [{ disk := 1, fromTower := source, toTower := destination
              description := "Mover disco 1 de torre " ++ toString (source + 1) ++ " a torre "
                ++ toString (destination + 1) }]
    else
      match getSolutionFuel fuel (n - 1) source auxiliary destination with
      | none => none
      | some first =>
        if first.length > maxSpreadArguments then none
        else
          match getSolutionFuel fuel (n - 1) auxiliary destination source with
          | none => none
          | some last =>
            if last.length > maxSpreadArguments then none
            else
              some (first ++
                [{ disk := n, fromTower := source, toTower := destination
                   description := "Mover disco " ++ toString n ++ " de torre "
                     ++ toString (source + 1) ++ " a torre " ++ toString (destination + 1) }]
                ++ last)

/-- Method `getSolution(n, source, destination, auxiliary)`.  The recursion depth for
`n >= 1` is exactly `n`; for `n <= 0` the recursion never reaches the base
case and the call does not return (`none`). -/
def getSolution (n source destination auxiliary : Int) : Option (List SolutionMove) :=
  getSolutionFuel n.toNat n source destination auxiliary

/-- Method `calculateMinimumMovesRecursive(n)` with a bound on the recursion
depth: `none` means the bound was exhausted before the base case `n === 1` was
reached.  Both arithmetic operations of `2 * T(n-1) + 1` are rounded. -/
def calculateMinimumMovesRecursiveFuel : Nat → Int → Option Int
  | 0, _ => none
  | fuel + 1, n =>
    if n = 1 then some 1
    else
      match calculateMinimumMovesRecursiveFuel fuel (n - 1) with
      | some r => some (roundToDouble (roundToDouble (2 * r) + 1))
      | none => none

/-- Method `calculateMinimumMovesRecursive(n)`.  The recursion depth for
`n >= 1` is exactly `n`; for `n <= 0` the recursion never reaches the base
case and the call does not return (`none`). -/
def calculateMinimumMovesRecursive (n : Int) : Option Int :=
  calculateMinimumMovesRecursiveFuel n.toNat n

/-- Result object of `validateFormulas`. -/
structure FormulaReport where
  n : Int
  closedForm : Int
  recursiveForm : Int
  isValid : Bool
  formula : String
deriving DecidableEq, Repr

/-- Method `validateFormulas(n)`: `none` when the call of
`calculateMinimumMovesRecursive` does not return. -/
def validateFormulas (n : Int) : Option FormulaReport :=
  let closedForm := calculateMinimumMoves n
  match calculateMinimumMovesRecursive n with
  | none => none
  | some recursiveForm =>
    some { n := n
           closedForm := closedForm
           recursiveForm := recursiveForm
           isValid := decide (closedForm = recursiveForm)
           formula := "T(" ++ toString n ++ ") = 2^" ++ toString n ++ " - 1 = "
             ++ toString closedForm }

/-- The `analysis` object built by `displayGameResult()`.  The source formats
the efficiency with `toFixed(2)`; here `efficiency` is the exact quotient
`bestScore / moveCount * 100` before formatting (the method is called only
after an accepted move, so `moveCount` is not zero). -/
structure GameAnalysis where
  completed : Bool
  movesUsed : Nat
  minimumMoves : Int
  efficiency : Rat
  isOptimal : Bool
  formula : String
  extraMoves : Int
deriving DecidableEq, Repr

/-- Method `displayGameResult()`: the returned analysis (the console output is
not modelled). -/
def displayGameResult (g : HanoiTowerGame) : GameAnalysis :=
  { completed := true
    movesUsed := g.moveCount
    minimumMoves := g.bestScore
    efficiency := (g.bestScore : Rat) / (g.moveCount : Rat) * 100
    isOptimal := decide ((g.moveCount : Int) = g.bestScore)
    formula := "T(" ++ toString g.numberOfDisks ++ ") = 2^" ++ toString g.numberOfDisks
      ++ " - 1 = " ++ toString g.bestScore
    extraMoves := (g.moveCount : Int) - g.bestScore }

/-- One line of the table NIVELES DE DIFICULTAD printed by
`demonstrateFormulas()`: a range of disk counts, its label and the range of
minimum moves. -/
structure DifficultyRow where
  disksFrom : Int
  disksTo : Int
  label : String
  movesFrom : Int
  movesTo : Int
deriving DecidableEq, Repr

/-- The five lines of the table printed by `demonstrateFormulas()`:
"3-4 discos: Principiante (7-15 movimientos)",
"5-6 discos: Intermedio (31-63 movimientos)",
"7-8 discos: Avanzado (127-255 movimientos)",
"9-10 discos: Experto (511-1023 movimientos)",
"11-12 discos: Maestro (2047-4095 movimientos)". -/
def difficultyTable : List DifficultyRow :=
  [ { disksFrom := 3, disksTo := 4, label := "Principiante", movesFrom := 7, movesTo := 15 },
    { disksFrom := 5, disksTo := 6, label := "Intermedio", movesFrom := 31, movesTo := 63 },
    { disksFrom := 7, disksTo := 8, label := "Avanzado", movesFrom := 127, movesTo := 255 },
    { disksFrom := 9, disksTo := 10, label := "Experto", movesFrom := 511, movesTo := 1023 },
    { disksFrom := 11, disksTo := 12, label := "Maestro", movesFrom := 2047, movesTo := 4095 } ]

/-- The label the printed table gives to a disk count, if a line covers it. -/
def tableLevel (n : Int) : Option String :=
  (difficultyTable.find? (fun row => decide (row.disksFrom ≤ n ∧ n ≤ row.disksTo))).map
    (fun row => row.label)

/-- The object built by `new HanoiTowerGame()`: the field initialisers of the
constructor followed by `initializeGame()`. -/
def newGame : HanoiTowerGame :=
  initializeGame
    { towers := ⟨[], [], []⟩
      numberOfDisks := 3
      moveCount := 0
      bestScore := calculateMinimumMoves 3
      gameHistory := []
      isGameComplete := false }

/-! ## Call sequences -/

/-- A call of one of the three state-changing methods. -/
inductive Call where
  | makeMove (fromTower toTower : Int)
  | setNumberOfDisks (n : Int)
  | resetGame
deriving DecidableEq, Repr

/-- The state after one call. -/
def Call.apply (g : HanoiTowerGame) : Call → HanoiTowerGame
  | .makeMove fromTower toTower => (HanoiTower.makeMove g fromTower toTower).2
  | .setNumberOfDisks n => (HanoiTower.setNumberOfDisks g n).2
  | .resetGame => (HanoiTower.resetGame g).2

/-- The state after a sequence of calls on a freshly constructed game. -/
def runCalls (calls : List Call) : HanoiTowerGame :=
  calls.foldl Call.apply newGame

/-- States reachable from `new HanoiTowerGame()` by a finite call sequence. -/
def Reachable (g : HanoiTowerGame) : Prop :=
  ∃ calls : List Call, runCalls calls = g

/-- Calling `makeMove(m.from, m.to)` for each move of a list in order: the
returned objects and the final state. -/
def playMoves (g : HanoiTowerGame) : List SolutionMove → List MoveResult × HanoiTowerGame
  | [] => ([], g)
  | m :: ms =>
    let r := makeMove g m.fromTower m.toTower
    let rest := playMoves r.2 ms
    (r.1 :: rest.1, rest.2)

/-- The list `[n, n-1, ..., 1]` (empty for `n <= 0`). -/
def descending (n : Int) : List Int :=
  (List.range n.toNat).map (fun (i : Nat) => n - (i : Int))

/-- The disk, source and destination of a history record. -/
def Move.key (m : Move) : Int × Int × Int :=
  (m.disk, m.fromTower, m.toTower)

/-- The disk, source and destination of a solver move. -/
def SolutionMove.key (m : SolutionMove) : Int × Int × Int :=
  (m.disk, m.fromTower, m.toTower)

/-- The state invariant of the game engine: the disk count is in range, every
tower is strictly decreasing from bottom to top, the towers together hold the
disks `numberOfDisks, ..., 1` once each, the counter equals the history length,
the completion flag agrees with the completion condition and `bestScore` is
the minimum-move count of the current disk count. -/
structure Inv (g : HanoiTowerGame) : Prop where
  disksLower : 1 ≤ g.numberOfDisks
  disksUpper : g.numberOfDisks ≤ 12
  sorted : ∀ i : Int, (g.towers.get i).Pairwise (· > ·)
  perm : (g.towers.t0 ++ g.towers.t1 ++ g.towers.t2).Perm (descending g.numberOfDisks)
  count : g.moveCount = g.gameHistory.length
  flag : g.isGameComplete = (checkGameCompletion g).isGameComplete
  score : g.bestScore = calculateMinimumMoves g.numberOfDisks

/-- Calling `makeMove(m.from, m.to)` for each move of a list in order, every
call is accepted: the validator answers valid with the disk the move names, and
`makeMove` returns `success = true`. -/
def movesAccepted (g : HanoiTowerGame) : List SolutionMove → Bool
  | [] => true
  | m :: ms =>
    decide (isValidMove g m.fromTower m.toTower = Validation.valid m.disk)
      && (makeMove g m.fromTower m.toTower).1.success
      && movesAccepted (makeMove g m.fromTower m.toTower).2 ms

/-- Playing the moves `ms` from `g` ends in `g1`, every call of `makeMove`
being accepted and moving the disk the move names. -/
structure Played (g : HanoiTowerGame) (ms : List SolutionMove) (g1 : HanoiTowerGame) : Prop where
  final : (playMoves g ms).2 = g1
  accepted : movesAccepted g ms = true
  keys : g1.gameHistory.map Move.key = g.gameHistory.map Move.key ++ ms.map SolutionMove.key
  moveCount : g1.moveCount = g.moveCount + ms.length
  numberOfDisks : g1.numberOfDisks = g.numberOfDisks
  bestScore : g1.bestScore = g.bestScore
  flag : ms ≠ [] → g1.isGameComplete = (checkGameCompletion g1).isGameComplete

/-- Calling `makeMove(from, to)` for each pair of a list in order, accepted or
rejected: the final state. -/
def makeMoves (g : HanoiTowerGame) (calls : List (Int × Int)) : HanoiTowerGame :=
  calls.foldl (fun s c => (makeMove s c.1 c.2).2) g

/-- The index of the tower that holds disk `x` (tower 2 when neither tower 0
nor tower 1 holds it). -/
def pegOf (tw : Towers) (x : Int) : Int :=
  if x ∈ tw.t0 then 0 else if x ∈ tw.t1 then 1 else 2

/-- The number of moves needed to bring the disks `1..k` onto tower `p`:
when disk `k` is on `p` the smaller disks go to `p`; otherwise they go to the
third tower, disk `k` moves (one move) and they follow (`2^(k-1) - 1` moves). -/
def movesNeeded : Nat → Towers → Int → Nat
  | 0, _, _ => 0
  | k + 1, tw, p =>
    if pegOf tw ((k + 1 : Nat) : Int) = p then movesNeeded k tw p
    else movesNeeded k tw (3 - p - pegOf tw ((k + 1 : Nat) : Int)) + 2 ^ k

/-! ## Basic facts about the operations -/

theorem getLast_eq_iff_snoc (xs : List Int) (h : xs ≠ []) (d : Int) :
    xs.getLast h = d ↔ ∃ rest, xs = rest ++ [d] := by
  constructor
  · intro e
    exact ⟨xs.dropLast, by rw [← e, List.dropLast_append_getLast]⟩
  · rintro ⟨rest, rfl⟩
    simp

theorem Towers.get_set_same (t : Towers) (i : Int) (xs : List Int) (h0 : 0 ≤ i) (h2 : i ≤ 2) :
    (t.set i xs).get i = xs := by
  have : i = 0 ∨ i = 1 ∨ i = 2 := by omega
  rcases this with rfl | rfl | rfl <;> simp [Towers.get, Towers.set]

theorem Towers.get_set_other (t : Towers) (i j : Int) (xs : List Int) (h : i ≠ j) :
    (t.set i xs).get j = t.get j := by
  unfold Towers.get Towers.set
  split_ifs <;> simp_all

theorem isValidMove_valid_iff (g : HanoiTowerGame) (f t d : Int) :
    isValidMove g f t = .valid d ↔
      (0 ≤ f ∧ f ≤ 2 ∧ 0 ≤ t ∧ t ≤ 2) ∧ f ≠ t ∧ (∃ rest, g.towers.get f = rest ++ [d]) ∧
        (g.towers.get t = [] ∨ ∃ r e, g.towers.get t = r ++ [e] ∧ d < e) := by
  unfold isValidMove
  dsimp only
  split_ifs with h1 h2 h3 h4 h5
  · simp; omega
  · simp
    intro _ _ _ _ _ rest hr
    rw [hr] at h2; simp at h2
  · simp; intro _ _ _ _ h; exact absurd h3 h
  · simp only [Validation.valid.injEq, getLast_eq_iff_snoc]
    have h4' : g.towers.get t = [] := List.length_eq_zero.mp h4
    constructor
    · intro h; exact ⟨by omega, h3, h, Or.inl h4'⟩
    · intro h; exact h.2.2.1
  · simp only [Validation.valid.injEq]
    constructor
    · intro hd
      refine ⟨by omega, h3, (getLast_eq_iff_snoc _ _ _).mp hd, Or.inr ?_⟩
      refine ⟨(g.towers.get t).dropLast, (g.towers.get t).getLast (fun e => h4 (by rw [e]; rfl)),
        (List.dropLast_append_getLast _).symm, ?_⟩
      rw [← hd]; exact h5
    · intro h; exact (getLast_eq_iff_snoc _ _ _).mpr h.2.2.1
  · simp only [false_iff, reduceCtorEq]
    rintro ⟨_, _, ⟨rest, hr⟩, h | ⟨r, e, hr2, hlt⟩⟩
    · rw [h] at h4; simp at h4
    · apply h5
      have e1 := (getLast_eq_iff_snoc (g.towers.get f) (fun e => h2 (by rw [e]; rfl)) d).mpr
        ⟨rest, hr⟩
      have e2 := (getLast_eq_iff_snoc (g.towers.get t) (fun e => h4 (by rw [e]; rfl)) e).mpr
        ⟨r, hr2⟩
      rw [e1, e2]; exact hlt

theorem makeMove_of_invalid {g : HanoiTowerGame} {f t : Int} {reason : String}
    (h : isValidMove g f t = .invalid reason) :
    makeMove g f t =
      ({ success := false, message := reason, moveCount := g.moveCount, isComplete := none }, g) := by
  unfold makeMove; rw [h]

theorem makeMove_of_valid {g : HanoiTowerGame} {f t d : Int}
    (h : isValidMove g f t = .valid d) :
    ∃ rest, g.towers.get f = rest ++ [d] ∧
      makeMove g f t =
        (let towers2 := (g.towers.set f rest).set t (g.towers.get t ++ [d])
         let g1 := checkGameCompletion
           { g with towers := towers2, moveCount := g.moveCount + 1
                    gameHistory := g.gameHistory ++
                      [{ moveNumber := g.moveCount + 1, disk := d, fromTower := f, toTower := t
                         towers := towers2 }] }
         ({ success := true
            message := "Disco " ++ toString d ++ " movido de torre " ++ toString (f + 1)
              ++ " a torre " ++ toString (t + 1)
            moveCount := g.moveCount + 1
            isComplete := some g1.isGameComplete }, g1)) := by
  obtain ⟨_, hne, ⟨rest, hr⟩, _⟩ := (isValidMove_valid_iff g f t d).mp h
  refine ⟨rest, hr, ?_⟩
  unfold makeMove
  rw [h]
  simp only [pop, hr, List.getLast?_append, List.dropLast_concat, Towers.get_set_other _ _ _ _ hne]
  simp [checkGameCompletion]

theorem descending_of_pos (n : Int) (h : 1 ≤ n) : descending n = n :: descending (n - 1) := by
  unfold descending
  have e : n.toNat = (n - 1).toNat + 1 := by omega
  rw [e, List.range_succ_eq_map]
  simp only [List.map_cons, List.map_map, Nat.cast_zero, sub_zero, List.cons.injEq, true_and]
  apply List.map_congr_left
  intro k _
  simp only [Function.comp, Nat.succ_eq_add_one, Nat.cast_add, Nat.cast_one]
  omega

theorem descending_of_nonpos (n : Int) (h : n ≤ 0) : descending n = [] := by
  unfold descending
  have e : n.toNat = 0 := by omega
  rw [e]; rfl

theorem mem_descending (n x : Int) : x ∈ descending n ↔ 1 ≤ x ∧ x ≤ n := by
  unfold descending
  simp only [List.mem_map, List.mem_range]
  constructor
  · rintro ⟨k, hk, rfl⟩; omega
  · intro h; exact ⟨(n - x).toNat, by omega, by omega⟩

theorem length_descending (n : Int) : (descending n).length = n.toNat := by
  simp [descending]

theorem sorted_descending_nat (k : Nat) : ∀ n : Int, n.toNat = k →
    (descending n).Pairwise (· > ·) := by
  induction k with
  | zero => intro n hn; rw [descending_of_nonpos n (by omega)]; exact List.Pairwise.nil
  | succ k ih =>
    intro n hn
    rw [descending_of_pos n (by omega)]
    refine List.Pairwise.cons ?_ (ih (n - 1) (by omega))
    intro x hx
    have := (mem_descending (n - 1) x).mp hx
    show n > x
    omega

theorem sorted_descending (n : Int) : (descending n).Pairwise (· > ·) :=
  sorted_descending_nat n.toNat n rfl

theorem initLoop_eq (fuel : Nat) : ∀ (i : Int) (tower : List Int), i.toNat ≤ fuel →
    initLoop fuel i tower = tower ++ descending i := by
  induction fuel with
  | zero =>
    intro i tower h
    rw [descending_of_nonpos i (by omega)]; simp [initLoop]
  | succ fuel ih =>
    intro i tower h
    unfold initLoop
    split_ifs with hi
    · rw [ih (i - 1) _ (by omega), descending_of_pos i hi]; simp
    · rw [descending_of_nonpos i (by omega)]; simp

theorem initializeGame_eq (g : HanoiTowerGame) :
    initializeGame g =
      { towers := ⟨descending g.numberOfDisks, [], []⟩
        numberOfDisks := g.numberOfDisks
        moveCount := 0
        bestScore := calculateMinimumMoves g.numberOfDisks
        gameHistory := []
        isGameComplete := false } := by
  unfold initializeGame
  simp [initLoop_eq _ _ _ (le_refl _)]

theorem Towers.get_zero (t : Towers) : t.get 0 = t.t0 := rfl
theorem Towers.get_one (t : Towers) : t.get 1 = t.t1 := rfl
theorem Towers.get_two (t : Towers) : t.get 2 = t.t2 := rfl

theorem inv_initializeGame (g : HanoiTowerGame) (h1 : 1 ≤ g.numberOfDisks)
    (h2 : g.numberOfDisks ≤ 12) : Inv (initializeGame g) := by
  rw [initializeGame_eq]
  refine ⟨h1, h2, ?_, ?_, rfl, ?_, rfl⟩
  · intro i
    unfold Towers.get
    split_ifs <;> simp [sorted_descending]
  · simp
  · simp [checkGameCompletion, Towers.get]
    omega

theorem towers_move_perm (tw : Towers) (f t d : Int) (rest : List Int)
    (hf0 : 0 ≤ f) (hf2 : f ≤ 2) (ht0 : 0 ≤ t) (ht2 : t ≤ 2) (hne : f ≠ t)
    (hr : tw.get f = rest ++ [d]) :
    (((tw.set f rest).set t (tw.get t ++ [d])).t0 ++ ((tw.set f rest).set t (tw.get t ++ [d])).t1
      ++ ((tw.set f rest).set t (tw.get t ++ [d])).t2).Perm (tw.t0 ++ tw.t1 ++ tw.t2) := by
  have cf : f = 0 ∨ f = 1 ∨ f = 2 := by omega
  have ct : t = 0 ∨ t = 1 ∨ t = 2 := by omega
  rw [List.perm_iff_count]
  intro a
  rcases cf with rfl | rfl | rfl <;> rcases ct with rfl | rfl | rfl <;>
    first
    | exact absurd rfl hne
    | (simp only [Towers.get, Towers.set] at hr ⊢
       simp at hr ⊢
       simp only [hr, List.count_append, List.count_cons, List.count_nil]
       omega)

theorem sorted_snoc_of_top (T : List Int) (d : Int) (hs : T.Pairwise (· > ·))
    (h : T = [] ∨ ∃ r e, T = r ++ [e] ∧ d < e) : (T ++ [d]).Pairwise (· > ·) := by
  rw [List.pairwise_append]
  refine ⟨hs, List.pairwise_singleton _ _, ?_⟩
  intro a ha b hb
  rw [List.mem_singleton] at hb
  subst hb
  rcases h with rfl | ⟨r, e, rfl, hlt⟩
  · simp at ha
  · rw [List.pairwise_append] at hs
    rcases List.mem_append.mp ha with ha | ha
    · have := hs.2.2 a ha e (List.mem_singleton_self e)
      show a > b
      omega
    · rw [List.mem_singleton] at ha
      subst ha
      exact hlt

theorem checkGameCompletion_idem (g : HanoiTowerGame) :
    (checkGameCompletion g).isGameComplete
      = (checkGameCompletion (checkGameCompletion g)).isGameComplete := by
  simp [checkGameCompletion]

theorem inv_makeMove (g : HanoiTowerGame) (f t : Int) (h : Inv g) : Inv (makeMove g f t).2 := by
  cases hv : isValidMove g f t with
  | invalid reason => rw [makeMove_of_invalid hv]; exact h
  | valid d =>
    obtain ⟨rest, hr, he⟩ := makeMove_of_valid hv
    obtain ⟨⟨hf0, hf2, ht0, ht2⟩, hne, _, hdest⟩ := (isValidMove_valid_iff g f t d).mp hv
    rw [he]
    refine ⟨h.disksLower, h.disksUpper, ?_, ?_, ?_, ?_, h.score⟩
    · intro i
      show (((g.towers.set f rest).set t (g.towers.get t ++ [d])).get i).Pairwise (· > ·)
      by_cases hit : t = i
      · subst hit
        rw [Towers.get_set_same _ _ _ ht0 ht2]
        exact sorted_snoc_of_top _ _ (h.sorted t) hdest
      · rw [Towers.get_set_other _ _ _ _ hit]
        by_cases hif : f = i
        · subst hif
          rw [Towers.get_set_same _ _ _ hf0 hf2]
          have := h.sorted f
          rw [hr, List.pairwise_append] at this
          exact this.1
        · rw [Towers.get_set_other _ _ _ _ hif]
          exact h.sorted i
    · exact (towers_move_perm g.towers f t d rest hf0 hf2 ht0 ht2 hne hr).trans h.perm
    · simp [checkGameCompletion, h.count]
    · exact checkGameCompletion_idem _

theorem inv_setNumberOfDisks (g : HanoiTowerGame) (n : Int) (h : Inv g) :
    Inv (setNumberOfDisks g n).2 := by
  unfold setNumberOfDisks
  split_ifs with hn
  · exact h
  · exact inv_initializeGame _ (by simp only []; omega) (by simp only []; omega)

theorem inv_resetGame (g : HanoiTowerGame) (h : Inv g) : Inv (resetGame g).2 :=
  inv_initializeGame g h.disksLower h.disksUpper

theorem inv_newGame : Inv newGame :=
  inv_initializeGame _ (by decide) (by decide)

theorem inv_apply (g : HanoiTowerGame) (c : Call) (h : Inv g) : Inv (c.apply g) := by
  cases c with
  | makeMove f t => exact inv_makeMove g f t h
  | setNumberOfDisks n => exact inv_setNumberOfDisks g n h
  | resetGame => exact inv_resetGame g h

theorem inv_foldl (calls : List Call) : ∀ g : HanoiTowerGame, Inv g →
    Inv (calls.foldl Call.apply g) := by
  induction calls with
  | nil => intro g h; exact h
  | cons c cs ih => intro g h; exact ih _ (inv_apply g c h)

theorem inv_of_reachable {g : HanoiTowerGame} (h : Reachable g) : Inv g := by
  obtain ⟨calls, rfl⟩ := h
  exact inv_foldl calls newGame inv_newGame

theorem playMoves_append (xs ys : List SolutionMove) : ∀ g : HanoiTowerGame,
    playMoves g (xs ++ ys)
      = ((playMoves g xs).1 ++ (playMoves (playMoves g xs).2 ys).1,
         (playMoves (playMoves g xs).2 ys).2) := by
  induction xs with
  | nil => intro g; simp [playMoves]
  | cons x xs ih => intro g; simp [playMoves, ih]

theorem movesAccepted_append (xs ys : List SolutionMove) : ∀ g : HanoiTowerGame,
    movesAccepted g (xs ++ ys)
      = (movesAccepted g xs && movesAccepted (playMoves g xs).2 ys) := by
  induction xs with
  | nil => intro g; simp [movesAccepted, playMoves]
  | cons x xs ih => intro g; simp [movesAccepted, playMoves, ih, Bool.and_assoc]

theorem Played.append {g g1 g2 : HanoiTowerGame} {xs ys : List SolutionMove}
    (h1 : Played g xs g1) (h2 : Played g1 ys g2) : Played g (xs ++ ys) g2 := by
  have e1 := h1.final
  have e2 := h2.final
  refine ⟨?_, ?_, ?_, ?_, ?_, ?_, ?_⟩
  · rw [playMoves_append, e1, e2]
  · rw [movesAccepted_append, e1, h1.accepted, h2.accepted]; rfl
  · rw [h2.keys, h1.keys]; simp
  · rw [h2.moveCount, h1.moveCount, List.length_append]; omega
  · rw [h2.numberOfDisks, h1.numberOfDisks]
  · rw [h2.bestScore, h1.bestScore]
  · intro hne
    by_cases hy : ys = []
    · subst hy
      have : g2 = g1 := by rw [← e2]; rfl
      subst this
      exact h1.flag (by simpa using hne)
    · exact h2.flag hy

theorem played_move (g : HanoiTowerGame) (m : SolutionMove) (rest : List Int)
    (hf0 : 0 ≤ m.fromTower) (hf2 : m.fromTower ≤ 2) (ht0 : 0 ≤ m.toTower) (ht2 : m.toTower ≤ 2)
    (hne : m.fromTower ≠ m.toTower)
    (hr : g.towers.get m.fromTower = rest ++ [m.disk])
    (hdest : ∀ x ∈ g.towers.get m.toTower, m.disk < x) :
    ∃ g1, Played g [m] g1 ∧ g1.towers.get m.fromTower = rest ∧
      g1.towers.get m.toTower = g.towers.get m.toTower ++ [m.disk] ∧
      ∀ i, i ≠ m.fromTower → i ≠ m.toTower → g1.towers.get i = g.towers.get i := by
  have hv : isValidMove g m.fromTower m.toTower = .valid m.disk := by
    rw [isValidMove_valid_iff]
    refine ⟨⟨hf0, hf2, ht0, ht2⟩, hne, ⟨rest, hr⟩, ?_⟩
    rcases List.eq_nil_or_concat (g.towers.get m.toTower) with h | ⟨r, e, h⟩
    · exact Or.inl h
    · rw [List.concat_eq_append] at h
      exact Or.inr ⟨r, e, h, hdest e (by rw [h]; simp)⟩
  obtain ⟨rest1, hr1, he⟩ := makeMove_of_valid hv
  have : rest1 = rest := by
    rw [hr] at hr1
    exact (List.append_inj_left' hr1 rfl).symm
  subst this
  refine ⟨(makeMove g m.fromTower m.toTower).2, ⟨rfl, ?_, ?_, ?_, ?_, ?_, ?_⟩, ?_, ?_, ?_⟩
  · simp only [movesAccepted, hv, decide_True, Bool.true_and, Bool.and_true]
    rw [he]
  · rw [he]; simp [checkGameCompletion, Move.key, SolutionMove.key]
  · rw [he]; simp [checkGameCompletion]
  · rw [he]; simp [checkGameCompletion]
  · rw [he]; simp [checkGameCompletion]
  · intro _; rw [he]; exact checkGameCompletion_idem _
  · rw [he]
    show ((g.towers.set m.fromTower rest1).set m.toTower _).get m.fromTower = rest1
    rw [Towers.get_set_other _ _ _ _ (Ne.symm hne), Towers.get_set_same _ _ _ hf0 hf2]
  · rw [he]
    show ((g.towers.set m.fromTower rest1).set m.toTower _).get m.toTower = _
    rw [Towers.get_set_same _ _ _ ht0 ht2]
  · intro i hif hit
    rw [he]
    show ((g.towers.set m.fromTower rest1).set m.toTower _).get i = _
    rw [Towers.get_set_other _ _ _ _ (Ne.symm hit), Towers.get_set_other _ _ _ _ (Ne.symm hif)]

theorem length_le_maxSpreadArguments (len k : Nat) (h : len + 1 = 2 ^ k) (hk : k ≤ 16) :
    ¬ len > maxSpreadArguments := by
  have h2 : (2 : Nat) ^ k ≤ 2 ^ 16 := Nat.pow_le_pow_right (by decide) hk
  have h3 : (2 : Nat) ^ 16 = 65536 := by norm_num
  unfold maxSpreadArguments
  omega

theorem solve_core (fuel : Nat) : ∀ (n s d a : Int) (g : HanoiTowerGame) (bs : List Int),
    1 ≤ n → n ≤ 17 → n.toNat ≤ fuel →
    0 ≤ s → s ≤ 2 → 0 ≤ d → d ≤ 2 → 0 ≤ a → a ≤ 2 → s ≠ d → s ≠ a → d ≠ a →
    g.towers.get s = bs ++ descending n →
    (∀ x ∈ bs, n < x) → (∀ x ∈ g.towers.get d, n < x) → (∀ x ∈ g.towers.get a, n < x) →
    ∃ ms g1, getSolutionFuel fuel n s d a = some ms ∧ ms.length + 1 = 2 ^ n.toNat ∧
      (∀ m ∈ ms, 1 ≤ m.disk ∧ m.disk ≤ n) ∧
      Played g ms g1 ∧ g1.towers.get s = bs ∧
      g1.towers.get d = g.towers.get d ++ descending n ∧ g1.towers.get a = g.towers.get a := by
  induction fuel with
  | zero => intro n s d a g bs h1 _ h2; omega
  | succ fuel ih =>
    intro n s d a g bs h1 h17 hfuel hs0 hs2 hd0 hd2 ha0 ha2 hsd hsa hda hsrc hbs hdst haux
    unfold getSolutionFuel
    by_cases hn : n = 1
    · subst hn
      rw [if_pos rfl]
      have hdesc : descending 1 = [1] := by decide
      rw [hdesc] at hsrc ⊢
      obtain ⟨g1, hp, e1, e2, e3⟩ := played_move g
        { disk := 1, fromTower := s, toTower := d
          description := "Mover disco 1 de torre " ++ toString (s + 1) ++ " a torre "
            ++ toString (d + 1) } bs hs0 hs2 hd0 hd2 hsd hsrc hdst
      refine ⟨_, g1, rfl, by simp, ?_, hp, e1, e2, e3 a (Ne.symm hsa) (Ne.symm hda)⟩
      intro m hm
      rw [List.mem_singleton] at hm
      subst hm
      simp
    · rw [if_neg hn]
      have hn2 : 1 ≤ n - 1 := by omega
      have hdn : descending n = n :: descending (n - 1) := descending_of_pos n h1
      -- step 1: n-1 disks from source to auxiliary
      obtain ⟨ms1, g1, hsol1, hlen1, hdisk1, hp1, e1s, e1a, e1d⟩ :=
        ih (n - 1) s a d g (bs ++ [n]) hn2 (by omega) (by omega) hs0 hs2 ha0 ha2 hd0 hd2 hsa hsd
          (Ne.symm hda) (by rw [hsrc, hdn]; simp)
          (by
            intro x hx
            rcases List.mem_append.mp hx with hx | hx
            · have := hbs x hx; omega
            · rw [List.mem_singleton] at hx; omega)
          (fun x hx => by have := haux x hx; omega)
          (fun x hx => by have := hdst x hx; omega)
      -- step 2: disk n from source to destination
      obtain ⟨g2, hp2, e2s, e2d, e2o⟩ := played_move g1
        { disk := n, fromTower := s, toTower := d
          description := "Mover disco " ++ toString n ++ " de torre " ++ toString (s + 1)
            ++ " a torre " ++ toString (d + 1) } bs hs0 hs2 hd0 hd2 hsd e1s
          (by rw [e1d]; exact hdst)
      have e2a := e2o a (Ne.symm hsa) (Ne.symm hda)
      simp only at e2s e2d e2a
      -- step 3: n-1 disks from auxiliary to destination
      obtain ⟨ms3, g3, hsol3, hlen3, hdisk3, hp3, e3a, e3d, e3s⟩ :=
        ih (n - 1) a d s g2 (g.towers.get a) hn2 (by omega) (by omega) ha0 ha2 hd0 hd2 hs0 hs2
          (Ne.symm hda) (Ne.symm hsa) (Ne.symm hsd) (by rw [e2a, e1a])
          (fun x hx => by have := haux x hx; omega)
          (by
            intro x hx
            rw [e2d, e1d] at hx
            rcases List.mem_append.mp hx with hx | hx
            · have := hdst x hx; omega
            · rw [List.mem_singleton] at hx; omega)
          (by
            intro x hx
            rw [e2s] at hx
            have := hbs x hx; omega)
      rw [hsol1]
      dsimp only
      rw [if_neg (length_le_maxSpreadArguments _ _ hlen1 (by omega)), hsol3]
      dsimp only
      rw [if_neg (length_le_maxSpreadArguments _ _ hlen3 (by omega))]
      refine ⟨_, g3, rfl, ?_, ?_, (hp1.append hp2).append hp3, ?_, ?_, ?_⟩
      · have e : n.toNat = (n - 1).toNat + 1 := by omega
        rw [e, pow_succ]
        simp only [List.length_append, List.length_singleton]
        omega
      · intro m hm
        simp only [List.mem_append, List.mem_singleton] at hm
        rcases hm with (hm | hm) | hm
        · have := hdisk1 m hm; omega
        · subst hm; simp; omega
        · have := hdisk3 m hm; omega
      · rw [e3s, e2s]
      · rw [e3d, e2d, e1d, hdn]; simp
      · rw [e3a]

theorem setNumberOfDisks_state (g : HanoiTowerGame) (n : Int) (h1 : 1 ≤ n) (h12 : n ≤ 12) :
    (setNumberOfDisks g n).2 =
      { towers := ⟨descending n, [], []⟩
        numberOfDisks := n
        moveCount := 0
        bestScore := calculateMinimumMoves n
        gameHistory := []
        isGameComplete := false } := by
  unfold setNumberOfDisks
  rw [if_neg (by omega)]
  simp only [initializeGame_eq]

theorem roundHalfEven_one (x : Nat) : roundHalfEven x 1 = x := by
  simp [roundHalfEven, Nat.mod_one]

theorem roundToDouble_of_small (x : Int) (h : x.natAbs < 2 ^ 53) : roundToDouble x = x := by
  have e : roundNatToDouble 1024 1 x.natAbs = x.natAbs := by
    show (if x.natAbs < 2 ^ 53 * 1 then roundHalfEven x.natAbs 1
      else roundNatToDouble 1023 (2 * 1) x.natAbs) = x.natAbs
    rw [if_pos (by omega), roundHalfEven_one]
  unfold roundToDouble
  rw [e]
  split_ifs <;> omega

theorem calculateMinimumMoves_of_pos (n : Int) (h : 1 ≤ n) (h53 : n ≤ 53) :
    calculateMinimumMoves n = 2 ^ n.toNat - 1 := by
  unfold calculateMinimumMoves
  rw [if_neg (by omega)]
  apply roundToDouble_of_small
  have h1 : (1 : Int) ≤ 2 ^ n.toNat := by exact_mod_cast Nat.one_le_two_pow
  have h2 : (2 : Nat) ^ n.toNat ≤ 2 ^ 53 := Nat.pow_le_pow_right (by decide) (by omega)
  have h3 : ((2 : Int) ^ n.toNat - 1).natAbs = 2 ^ n.toNat - 1 := by
    have : ((2 : Int) ^ n.toNat - 1) = ((2 ^ n.toNat - 1 : Nat) : Int) := by
      have := Nat.one_le_two_pow (n := n.toNat)
      push_cast [Nat.cast_sub this]
      rfl
    rw [this, Int.natAbs_ofNat]
  rw [h3]
  have := Nat.one_le_two_pow (n := n.toNat)
  omega

theorem playMoves_results_length (ms : List SolutionMove) : ∀ g : HanoiTowerGame,
    (playMoves g ms).1.length = ms.length := by
  induction ms with
  | nil => intro g; rfl
  | cons m ms ih => intro g; simp [playMoves, ih]

theorem playMoves_success_of_accepted (ms : List SolutionMove) : ∀ g : HanoiTowerGame,
    movesAccepted g ms = true → ∀ r ∈ (playMoves g ms).1, r.success = true := by
  induction ms with
  | nil => intro g _ r hr; simp [playMoves] at hr
  | cons m ms ih =>
    intro g h r hr
    simp only [movesAccepted, Bool.and_eq_true] at h
    simp only [playMoves, List.mem_cons] at hr
    rcases hr with hr | hr
    · rw [hr]; exact h.1.2
    · exact ih _ h.2 r hr

/-! ## Claims -/

/-- C1: for every disk count `N` with `1 <= N <= 12` and every prior state,
`getSolution(N, 0, 1, 2)` returns a list of `2^N - 1` moves; played in order
with `makeMove` from the state left by `setNumberOfDisks(N)`, every move is
valid with exactly the disk it names and succeeds, the history lists these
moves, and at the end `isGameComplete` is true and `moveCount` equals
`2^N - 1`, which is `bestScore`. -/
theorem C1_solution_completes_game (N : Int) (g0 : HanoiTowerGame) (h1 : 1 ≤ N) (h12 : N ≤ 12) :
    ∃ ms, getSolution N 0 1 2 = some ms ∧ ms.length + 1 = 2 ^ N.toNat ∧
      movesAccepted (setNumberOfDisks g0 N).2 ms = true ∧
      (∀ r ∈ (playMoves (setNumberOfDisks g0 N).2 ms).1, r.success = true) ∧
      (playMoves (setNumberOfDisks g0 N).2 ms).1.length = ms.length ∧
      (playMoves (setNumberOfDisks g0 N).2 ms).2.gameHistory.map Move.key
        = ms.map SolutionMove.key ∧
      (playMoves (setNumberOfDisks g0 N).2 ms).2.isGameComplete = true ∧
      ((playMoves (setNumberOfDisks g0 N).2 ms).2.moveCount : Int) = 2 ^ N.toNat - 1 ∧
      (playMoves (setNumberOfDisks g0 N).2 ms).2.bestScore = 2 ^ N.toNat - 1 := by
  have hst := setNumberOfDisks_state g0 N h1 h12
  obtain ⟨ms, g1, hsol, hlen, -, hp, e0, e1, e2⟩ :=
    solve_core N.toNat N 0 1 2 (setNumberOfDisks g0 N).2 [] h1 (by omega) (le_refl _)
      (by decide) (by decide) (by decide) (by decide) (by decide) (by decide)
      (by decide) (by decide) (by decide) (by rw [hst]; simp [Towers.get])
      (by simp) (by rw [hst]; simp [Towers.get]) (by rw [hst]; simp [Towers.get])
  have hne : ms ≠ [] := by
    intro h
    rw [h] at hlen
    have : 2 ≤ 2 ^ N.toNat := by
      have e : N.toNat = (N - 1).toNat + 1 := by omega
      rw [e, pow_succ]
      have := Nat.one_le_two_pow (n := (N - 1).toNat)
      omega
    simp at hlen
    omega
  have hfin := hp.final
  refine ⟨ms, hsol, hlen, hp.accepted, ?_, ?_, ?_, ?_, ?_, ?_⟩
  · exact playMoves_success_of_accepted ms _ hp.accepted
  · exact playMoves_results_length ms _
  · rw [hfin, hp.keys, hst]; simp
  · rw [hfin, hp.flag hne]
    rw [hst] at e1 e2
    simp only [Towers.get_one, Towers.get_two, List.nil_append] at e1 e2
    simp only [checkGameCompletion, Towers.get_zero, Towers.get_one, Towers.get_two, e0, e1, e2,
      hp.numberOfDisks, hst, length_descending]
    simp
    omega
  · rw [hfin, hp.moveCount, hst]
    simp only [Nat.zero_add]
    have : ((ms.length + 1 : Nat) : Int) = ((2 ^ N.toNat : Nat) : Int) := by rw [hlen]
    push_cast at this
    omega
  · rw [hfin, hp.bestScore, hst]
    exact calculateMinimumMoves_of_pos N h1 (by omega)

/-- Witness for C1 at `N = 3`, starting from a freshly constructed game. -/
theorem C1_solution_completes_game_witness :
    ∃ ms, getSolution 3 0 1 2 = some ms ∧ ms.length + 1 = 2 ^ (3 : Int).toNat ∧
      movesAccepted (setNumberOfDisks newGame 3).2 ms = true ∧
      (∀ r ∈ (playMoves (setNumberOfDisks newGame 3).2 ms).1, r.success = true) ∧
      (playMoves (setNumberOfDisks newGame 3).2 ms).1.length = ms.length ∧
      (playMoves (setNumberOfDisks newGame 3).2 ms).2.gameHistory.map Move.key
        = ms.map SolutionMove.key ∧
      (playMoves (setNumberOfDisks newGame 3).2 ms).2.isGameComplete = true ∧
      ((playMoves (setNumberOfDisks newGame 3).2 ms).2.moveCount : Int)
        = 2 ^ (3 : Int).toNat - 1 ∧
      (playMoves (setNumberOfDisks newGame 3).2 ms).2.bestScore = 2 ^ (3 : Int).toNat - 1 :=
  C1_solution_completes_game 3 newGame (by decide) (by decide)

/-- C2: in every state reachable from `new HanoiTowerGame()` by a finite
sequence of `makeMove`, `setNumberOfDisks` and `resetGame` calls with
arbitrary integer arguments, each of the three towers is strictly decreasing
from bottom (index 0) to top (last element). -/
theorem C2_towers_strictly_decreasing (g : HanoiTowerGame) (h : Reachable g) :
    g.towers.t0.Pairwise (· > ·) ∧ g.towers.t1.Pairwise (· > ·) ∧
      g.towers.t2.Pairwise (· > ·) :=
  ⟨(inv_of_reachable h).sorted 0, (inv_of_reachable h).sorted 1, (inv_of_reachable h).sorted 2⟩

/-- Witness for C2 after one accepted and one rejected move and a change of
the disk count. -/
theorem C2_towers_strictly_decreasing_witness :
    (runCalls [.makeMove 0 1, .makeMove 0 1, .setNumberOfDisks 4, .makeMove 0 2]).towers.t0.Pairwise
        (· > ·) ∧
      (runCalls [.makeMove 0 1, .makeMove 0 1, .setNumberOfDisks 4, .makeMove 0 2]).towers.t1.Pairwise
        (· > ·) ∧
      (runCalls [.makeMove 0 1, .makeMove 0 1, .setNumberOfDisks 4, .makeMove 0 2]).towers.t2.Pairwise
        (· > ·) :=
  C2_towers_strictly_decreasing _ ⟨_, rfl⟩

theorem count_descending (n d : Int) :
    (descending n).count d = if 1 ≤ d ∧ d ≤ n then 1 else 0 := by
  have hnd : (descending n).Nodup :=
    (sorted_descending n).imp (fun {a b} (hab : a > b) => ne_of_gt hab)
  rw [List.count_eq_of_nodup hnd]
  simp only [mem_descending]

/-- C3: in every reachable state the concatenation of the three towers is a
permutation of the disks `numberOfDisks, ..., 1`: every size `d` with
`1 <= d <= numberOfDisks` occurs exactly once, no other value occurs, and the
total number of disks equals `numberOfDisks`. -/
theorem C3_disks_conserved (g : HanoiTowerGame) (h : Reachable g) :
    (g.towers.t0 ++ g.towers.t1 ++ g.towers.t2).Perm (descending g.numberOfDisks) ∧
      (∀ d : Int, (g.towers.t0 ++ g.towers.t1 ++ g.towers.t2).count d
        = if 1 ≤ d ∧ d ≤ g.numberOfDisks then 1 else 0) ∧
      ((g.towers.t0.length + g.towers.t1.length + g.towers.t2.length : Nat) : Int)
        = g.numberOfDisks := by
  have hi := inv_of_reachable h
  refine ⟨hi.perm, ?_, ?_⟩
  · intro d
    rw [hi.perm.count_eq, count_descending]
  · have := hi.perm.length_eq
    rw [length_descending] at this
    simp only [List.length_append] at this
    rw [this]
    have := hi.disksLower
    omega

/-- Witness for C3 after two accepted moves of a fresh game. -/
theorem C3_disks_conserved_witness :
    ((runCalls [.makeMove 0 1, .makeMove 0 2]).towers.t0
        ++ (runCalls [.makeMove 0 1, .makeMove 0 2]).towers.t1
        ++ (runCalls [.makeMove 0 1, .makeMove 0 2]).towers.t2).Perm
        (descending (runCalls [.makeMove 0 1, .makeMove 0 2]).numberOfDisks) ∧
      (∀ d : Int, ((runCalls [.makeMove 0 1, .makeMove 0 2]).towers.t0
          ++ (runCalls [.makeMove 0 1, .makeMove 0 2]).towers.t1
          ++ (runCalls [.makeMove 0 1, .makeMove 0 2]).towers.t2).count d
        = if 1 ≤ d ∧ d ≤ (runCalls [.makeMove 0 1, .makeMove 0 2]).numberOfDisks
          then 1 else 0) ∧
      (((runCalls [.makeMove 0 1, .makeMove 0 2]).towers.t0.length
          + (runCalls [.makeMove 0 1, .makeMove 0 2]).towers.t1.length
          + (runCalls [.makeMove 0 1, .makeMove 0 2]).towers.t2.length : Nat) : Int)
        = (runCalls [.makeMove 0 1, .makeMove 0 2]).numberOfDisks :=
  C3_disks_conserved _ ⟨_, rfl⟩

theorem isValid_eq_false_iff (v : Validation) :
    v.isValid = false ↔ ∃ reason, v = .invalid reason := by
  cases v <;> simp [Validation.isValid]

theorem isValid_eq_true_iff (v : Validation) :
    v.isValid = true ↔ ∃ d, v = .valid d := by
  cases v <;> simp [Validation.isValid]

/-- C4: for every state and all integers `fromTower`, `toTower` for which
`isValidMove` answers `valid = false`, `makeMove` returns `success = false`
with the validator's reason as message and the unchanged counter as
`moveCount` (and no `isComplete` field), and the state after the call is the
state before it.  Example: on a fresh 3-disk game after `makeMove(0, 1)`, a
second `makeMove(0, 1)` is rejected with a message naming disks 2 and 1, and
`moveCount` stays 1. -/
theorem C4_rejected_move_changes_nothing :
    (∀ (g : HanoiTowerGame) (f t : Int), (isValidMove g f t).isValid = false →
      ∃ reason, isValidMove g f t = .invalid reason ∧
        (makeMove g f t).1
          = { success := false, message := reason, moveCount := g.moveCount, isComplete := none } ∧
        (makeMove g f t).2 = g) ∧
    ((makeMove newGame 0 1).1.success = true ∧
      (makeMove newGame 0 1).2.moveCount = 1 ∧
      (makeMove (makeMove newGame 0 1).2 0 1).1
        = { success := false, message := "No se puede poner disco 2 sobre disco 1"
            moveCount := 1, isComplete := none } ∧
      (makeMove (makeMove newGame 0 1).2 0 1).2 = (makeMove newGame 0 1).2) := by
  refine ⟨?_, by decide⟩
  intro g f t h
  obtain ⟨reason, hr⟩ := (isValid_eq_false_iff _).mp h
  exact ⟨reason, hr, by rw [makeMove_of_invalid hr], by rw [makeMove_of_invalid hr]⟩

/-- Witness for C4: moving from the empty tower 1 of a fresh game. -/
theorem C4_rejected_move_changes_nothing_witness :
    ∃ reason, isValidMove newGame 1 0 = .invalid reason ∧
      (makeMove newGame 1 0).1
        = { success := false, message := reason, moveCount := newGame.moveCount
            isComplete := none } ∧
      (makeMove newGame 1 0).2 = newGame :=
  C4_rejected_move_changes_nothing.1 newGame 1 0 (by decide)

/-- C5: whenever `isValidMove(fromTower, toTower)` is valid with disk `d`,
`makeMove` removes the last element `d` from `towers[fromTower]`, appends `d`
as last element of `towers[toTower]`, leaves every other tower,
`numberOfDisks` and `bestScore` unchanged, increases `moveCount` by one,
appends one history record (new `moveCount`, `d`, `fromTower`, `toTower`, the
resulting towers), sets `isGameComplete` to the completion condition of the
new towers, and returns `success = true` with the new `moveCount` and that
flag. -/
theorem C5_accepted_move_effect (g : HanoiTowerGame) (f t d : Int)
    (h : isValidMove g f t = .valid d) :
    g.towers.get f = (makeMove g f t).2.towers.get f ++ [d] ∧
      (makeMove g f t).2.towers.get t = g.towers.get t ++ [d] ∧
      (∀ k : Int, k ≠ f → k ≠ t → (makeMove g f t).2.towers.get k = g.towers.get k) ∧
      (makeMove g f t).2.numberOfDisks = g.numberOfDisks ∧
      (makeMove g f t).2.bestScore = g.bestScore ∧
      (makeMove g f t).2.moveCount = g.moveCount + 1 ∧
      (makeMove g f t).2.gameHistory = g.gameHistory ++
        [{ moveNumber := g.moveCount + 1, disk := d, fromTower := f, toTower := t
           towers := (makeMove g f t).2.towers }] ∧
      ((makeMove g f t).2.isGameComplete = true ↔
        (((makeMove g f t).2.towers.t1.length : Int) = g.numberOfDisks ∧
          (makeMove g f t).2.towers.t0 = [] ∧ (makeMove g f t).2.towers.t2 = [])) ∧
      (makeMove g f t).1 =
        { success := true
          message := "Disco " ++ toString d ++ " movido de torre " ++ toString (f + 1)
            ++ " a torre " ++ toString (t + 1)
          moveCount := g.moveCount + 1
          isComplete := some (makeMove g f t).2.isGameComplete } := by
  obtain ⟨rest, hr, he⟩ := makeMove_of_valid h
  obtain ⟨⟨hf0, hf2, ht0, ht2⟩, hne, -, -⟩ := (isValidMove_valid_iff g f t d).mp h
  rw [he]
  dsimp only
  have e1 : (checkGameCompletion
      { g with towers := (g.towers.set f rest).set t (g.towers.get t ++ [d])
               moveCount := g.moveCount + 1
               gameHistory := g.gameHistory ++
                 [{ moveNumber := g.moveCount + 1, disk := d, fromTower := f, toTower := t
                    towers := (g.towers.set f rest).set t (g.towers.get t ++ [d]) }] }).towers
      = (g.towers.set f rest).set t (g.towers.get t ++ [d]) := rfl
  refine ⟨?_, ?_, ?_, rfl, rfl, rfl, rfl, ?_, rfl⟩
  · rw [e1, Towers.get_set_other _ _ _ _ (Ne.symm hne), Towers.get_set_same _ _ _ hf0 hf2, hr]
  · rw [e1, Towers.get_set_same _ _ _ ht0 ht2]
  · intro k hkf hkt
    rw [e1, Towers.get_set_other _ _ _ _ (Ne.symm hkt),
      Towers.get_set_other _ _ _ _ (Ne.symm hkf)]
  · simp [checkGameCompletion, Towers.get_zero, Towers.get_one, Towers.get_two, and_assoc]

/-- Witness for C5: the first move of a fresh 3-disk game. -/
theorem C5_accepted_move_effect_witness :
    newGame.towers.get 0 = (makeMove newGame 0 1).2.towers.get 0 ++ [1] ∧
      (makeMove newGame 0 1).2.towers.get 1 = newGame.towers.get 1 ++ [1] ∧
      (∀ k : Int, k ≠ 0 → k ≠ 1 →
        (makeMove newGame 0 1).2.towers.get k = newGame.towers.get k) ∧
      (makeMove newGame 0 1).2.numberOfDisks = newGame.numberOfDisks ∧
      (makeMove newGame 0 1).2.bestScore = newGame.bestScore ∧
      (makeMove newGame 0 1).2.moveCount = newGame.moveCount + 1 ∧
      (makeMove newGame 0 1).2.gameHistory = newGame.gameHistory ++
        [{ moveNumber := newGame.moveCount + 1, disk := 1, fromTower := 0, toTower := 1
           towers := (makeMove newGame 0 1).2.towers }] ∧
      ((makeMove newGame 0 1).2.isGameComplete = true ↔
        (((makeMove newGame 0 1).2.towers.t1.length : Int) = newGame.numberOfDisks ∧
          (makeMove newGame 0 1).2.towers.t0 = [] ∧ (makeMove newGame 0 1).2.towers.t2 = [])) ∧
      (makeMove newGame 0 1).1 =
        { success := true
          message := "Disco " ++ toString (1 : Int) ++ " movido de torre "
            ++ toString ((0 : Int) + 1) ++ " a torre " ++ toString ((1 : Int) + 1)
          moveCount := newGame.moveCount + 1
          isComplete := some (makeMove newGame 0 1).2.isGameComplete } :=
  C5_accepted_move_effect newGame 0 1 1 (by decide)

theorem getLast_snoc (rest : List Int) (d : Int) (h : rest ++ [d] ≠ []) :
    (rest ++ [d]).getLast h = d := by
  simp

theorem isValidMove_of_tops (g : HanoiTowerGame) (f t d e : Int) (rest r : List Int)
    (hrange : ¬(f < 0 ∨ f > 2 ∨ t < 0 ∨ t > 2)) (hne : f ≠ t)
    (hf : g.towers.get f = rest ++ [d]) (ht : g.towers.get t = r ++ [e]) :
    isValidMove g f t =
      if d < e then .valid d
      else .invalid ("No se puede poner disco " ++ toString d ++ " sobre disco " ++ toString e) := by
  unfold isValidMove
  have hs : ¬ (g.towers.get f).length = 0 := by rw [hf]; simp
  have hd : ¬ (g.towers.get t).length = 0 := by rw [ht]; simp
  rw [if_neg hrange, dif_neg hs, if_neg hne]
  dsimp only
  rw [dif_neg hd]
  have e1 : (g.towers.get f).getLast (fun e => hs (by rw [e]; rfl)) = d :=
    (getLast_eq_iff_snoc _ _ _).mpr ⟨rest, hf⟩
  have e2 : (g.towers.get t).getLast (fun e => hd (by rw [e]; rfl)) = e :=
    (getLast_eq_iff_snoc _ _ _).mpr ⟨r, ht⟩
  rw [e1, e2]

/-- C6: the decision table of `isValidMove`, in order of precedence, for all
integers `fromTower`, `toTower` and every state: (1) an index outside `[0,2]`
gives invalid "Torre fuera de rango"; else (2) an empty source gives invalid
"Torre origen vacía", also when both indices are equal; else (3) equal indices
give invalid "No se puede mover a la misma torre"; else (4) an empty
destination gives valid with the top disk of the source; else (5) the answer
is valid with the top disk of the source when it is smaller than the top disk
of the destination and otherwise invalid with a reason naming both disks.
Hence the move is valid iff both indices are in range and differ, the source
is non-empty and the destination is empty or has a strictly larger top disk.
The validator only reads the state: it returns a result and no state. -/
theorem C6_validator_decision_table (g : HanoiTowerGame) (f t : Int) :
    ((f < 0 ∨ f > 2 ∨ t < 0 ∨ t > 2) →
      isValidMove g f t = .invalid "Torre fuera de rango") ∧
    (¬(f < 0 ∨ f > 2 ∨ t < 0 ∨ t > 2) → g.towers.get f = [] →
      isValidMove g f t = .invalid "Torre origen vacía") ∧
    (¬(f < 0 ∨ f > 2 ∨ t < 0 ∨ t > 2) → g.towers.get f ≠ [] → f = t →
      isValidMove g f t = .invalid "No se puede mover a la misma torre") ∧
    (¬(f < 0 ∨ f > 2 ∨ t < 0 ∨ t > 2) → f ≠ t →
      ∀ (rest : List Int) (d : Int), g.towers.get f = rest ++ [d] → g.towers.get t = [] →
        isValidMove g f t = .valid d) ∧
    (¬(f < 0 ∨ f > 2 ∨ t < 0 ∨ t > 2) → f ≠ t →
      ∀ (rest r : List Int) (d e : Int), g.towers.get f = rest ++ [d] →
        g.towers.get t = r ++ [e] →
        (d < e → isValidMove g f t = .valid d) ∧
        (¬ d < e → isValidMove g f t = .invalid
          ("No se puede poner disco " ++ toString d ++ " sobre disco " ++ toString e))) ∧
    ((isValidMove g f t).isValid = true ↔
      (0 ≤ f ∧ f ≤ 2 ∧ 0 ≤ t ∧ t ≤ 2) ∧ f ≠ t ∧ g.towers.get f ≠ [] ∧
        (g.towers.get t = [] ∨
          ∃ (rest r : List Int) (d e : Int), g.towers.get f = rest ++ [d] ∧
            g.towers.get t = r ++ [e] ∧ d < e)) := by
  refine ⟨?_, ?_, ?_, ?_, ?_, ?_⟩
  · intro h
    unfold isValidMove
    rw [if_pos h]
  · intro h hs
    unfold isValidMove
    rw [if_neg h, dif_pos (by rw [hs]; rfl)]
  · intro h hs hft
    unfold isValidMove
    rw [if_neg h, dif_neg (by simpa using hs), if_pos hft]
  · intro h hne rest d hf ht
    rw [isValidMove_valid_iff]
    exact ⟨by omega, hne, ⟨rest, hf⟩, Or.inl ht⟩
  · intro h hne rest r d e hf ht
    rw [isValidMove_of_tops g f t d e rest r h hne hf ht]
    exact ⟨fun hlt => if_pos hlt, fun hlt => if_neg hlt⟩
  · rw [isValid_eq_true_iff]
    constructor
    · rintro ⟨d, hd⟩
      obtain ⟨hr, hne, ⟨rest, hrest⟩, hdest⟩ := (isValidMove_valid_iff g f t d).mp hd
      refine ⟨hr, hne, by rw [hrest]; simp, ?_⟩
      rcases hdest with h | ⟨r, e, hre, hlt⟩
      · exact Or.inl h
      · exact Or.inr ⟨rest, r, d, e, hrest, hre, hlt⟩
    · rintro ⟨hr, hne, hs, hdest⟩
      rcases List.eq_nil_or_concat (g.towers.get f) with h | ⟨rest, d, hrest⟩
      · exact absurd h hs
      · rw [List.concat_eq_append] at hrest
        refine ⟨d, (isValidMove_valid_iff g f t d).mpr ⟨hr, hne, ⟨rest, hrest⟩, ?_⟩⟩
        rcases hdest with h | ⟨rest1, r, d1, e, h1, h2, hlt⟩
        · exact Or.inl h
        · rw [hrest] at h1
          have := List.append_inj_right' h1 rfl
          simp only [List.cons.injEq, and_true] at this
          subst this
          exact Or.inr ⟨r, e, h2, hlt⟩

/-- Instance of C6 on a fresh 3-disk game after `makeMove(0, 1)`: every row
of the table is exercised by a concrete call. -/
theorem C6_validator_decision_table_witness :
    isValidMove (makeMove newGame 0 1).2 3 0 = .invalid "Torre fuera de rango" ∧
    isValidMove (makeMove newGame 0 1).2 2 2 = .invalid "Torre origen vacía" ∧
    isValidMove (makeMove newGame 0 1).2 1 1 = .invalid "No se puede mover a la misma torre" ∧
    isValidMove (makeMove newGame 0 1).2 0 2 = .valid 2 ∧
    isValidMove (makeMove newGame 0 1).2 1 0 = .valid 1 ∧
    isValidMove (makeMove newGame 0 1).2 0 1
      = .invalid "No se puede poner disco 2 sobre disco 1" :=
  ⟨(C6_validator_decision_table (makeMove newGame 0 1).2 3 0).1 (by decide),
   (C6_validator_decision_table (makeMove newGame 0 1).2 2 2).2.1 (by decide) (by decide),
   (C6_validator_decision_table (makeMove newGame 0 1).2 1 1).2.2.1 (by decide) (by decide) rfl,
   (C6_validator_decision_table (makeMove newGame 0 1).2 0 2).2.2.2.1 (by decide) (by decide)
     [3] 2 (by decide) (by decide),
   ((C6_validator_decision_table (makeMove newGame 0 1).2 1 0).2.2.2.2.1 (by decide) (by decide)
     [] [3] 1 2 (by decide) (by decide)).1 (by decide),
   ((C6_validator_decision_table (makeMove newGame 0 1).2 0 1).2.2.2.2.1 (by decide) (by decide)
     [3] [] 2 1 (by decide) (by decide)).2 (by decide)⟩

/-- C7: in every reachable state `isGameComplete` is true if and only if
`towers[1]` is exactly `[N, N-1, ..., 1]` for `N = numberOfDisks` and
`towers[0]` and `towers[2]` are both empty. -/
theorem C7_completion_flag (g : HanoiTowerGame) (h : Reachable g) :
    g.isGameComplete = true ↔
      g.towers.t1 = descending g.numberOfDisks ∧ g.towers.t0 = [] ∧ g.towers.t2 = [] := by
  have hi := inv_of_reachable h
  rw [hi.flag]
  simp only [checkGameCompletion, Towers.get_zero, Towers.get_one, Towers.get_two,
    Bool.and_eq_true, decide_eq_true_eq, List.length_eq_zero]
  constructor
  · rintro ⟨⟨-, h0⟩, h2⟩
    refine ⟨?_, h0, h2⟩
    have hp := hi.perm
    rw [h0, h2] at hp
    simp only [List.nil_append, List.append_nil] at hp
    exact List.eq_of_perm_of_sorted hp (hi.sorted 1) (sorted_descending _)
  · rintro ⟨h1, h0, h2⟩
    refine ⟨⟨?_, h0⟩, h2⟩
    rw [h1, length_descending]
    have := hi.disksLower
    omega

/-- Witness for C7: after the seven moves of the 3-disk solution the flag is
true, so tower 1 is `[3, 2, 1]` and the other towers are empty. -/
theorem C7_completion_flag_witness :
    (runCalls [.makeMove 0 1, .makeMove 0 2, .makeMove 1 2, .makeMove 0 1, .makeMove 2 0,
        .makeMove 2 1, .makeMove 0 1]).isGameComplete = true ∧
      (runCalls [.makeMove 0 1, .makeMove 0 2, .makeMove 1 2, .makeMove 0 1, .makeMove 2 0,
        .makeMove 2 1, .makeMove 0 1]).towers.t1 = descending 3 ∧
      (runCalls [.makeMove 0 1, .makeMove 0 2, .makeMove 1 2, .makeMove 0 1, .makeMove 2 0,
        .makeMove 2 1, .makeMove 0 1]).towers.t0 = [] ∧
      (runCalls [.makeMove 0 1, .makeMove 0 2, .makeMove 1 2, .makeMove 0 1, .makeMove 2 0,
        .makeMove 2 1, .makeMove 0 1]).towers.t2 = [] :=
  ⟨by decide, (C7_completion_flag _ ⟨_, rfl⟩).mp (by decide)⟩

theorem makeMove_success_iff (g : HanoiTowerGame) (f t : Int) :
    (makeMove g f t).1.success = true ↔ ∃ d, isValidMove g f t = .valid d := by
  cases hv : isValidMove g f t with
  | invalid reason => rw [makeMove_of_invalid hv]; simp
  | valid d =>
    obtain ⟨rest, -, he⟩ := makeMove_of_valid hv
    rw [he]; simp

theorem makeMove_history_of_valid (g : HanoiTowerGame) (f t d : Int)
    (h : isValidMove g f t = .valid d) :
    (makeMove g f t).2.gameHistory = g.gameHistory ++
      [{ moveNumber := g.moveCount + 1, disk := d, fromTower := f, toTower := t
         towers := (makeMove g f t).2.towers }] := by
  obtain ⟨rest, -, he⟩ := makeMove_of_valid h
  rw [he]
  rfl

theorem getLast?_descending (n : Int) (h : 1 ≤ n) : (descending n).getLast? = some 1 := by
  unfold descending
  have e : n.toNat = (n - 1).toNat + 1 := by omega
  rw [e, List.range_succ, List.map_append]
  simp
  omega

/-- C8: in every reachable state `moveCount` equals `gameHistory.length`;
a call of `makeMove` that succeeds appends exactly one record to the history
and leaves the earlier records as they were, and a call that is rejected
leaves the history untouched. -/
theorem C8_history_matches_counter (g : HanoiTowerGame) (h : Reachable g) (f t : Int) :
    g.moveCount = g.gameHistory.length ∧
      (makeMove g f t).2.moveCount = (makeMove g f t).2.gameHistory.length ∧
      ((makeMove g f t).1.success = true →
        ∃ record, (makeMove g f t).2.gameHistory = g.gameHistory ++ [record]) ∧
      ((makeMove g f t).1.success = false →
        (makeMove g f t).2.gameHistory = g.gameHistory) := by
  refine ⟨(inv_of_reachable h).count, (inv_makeMove g f t (inv_of_reachable h)).count, ?_, ?_⟩
  · intro hs
    obtain ⟨d, hd⟩ := (makeMove_success_iff g f t).mp hs
    exact ⟨_, makeMove_history_of_valid g f t d hd⟩
  · intro hs
    cases hv : isValidMove g f t with
    | invalid reason => rw [makeMove_of_invalid hv]
    | valid d =>
      have := (makeMove_success_iff g f t).mpr ⟨d, hv⟩
      rw [this] at hs
      exact absurd hs (by decide)

/-- Witness for C8: an accepted move on the state left by one accepted and
one rejected move. -/
theorem C8_history_matches_counter_witness :
    (runCalls [.makeMove 0 1, .makeMove 0 1]).moveCount
        = (runCalls [.makeMove 0 1, .makeMove 0 1]).gameHistory.length ∧
      (makeMove (runCalls [.makeMove 0 1, .makeMove 0 1]) 0 2).2.moveCount
        = (makeMove (runCalls [.makeMove 0 1, .makeMove 0 1]) 0 2).2.gameHistory.length ∧
      ((makeMove (runCalls [.makeMove 0 1, .makeMove 0 1]) 0 2).1.success = true →
        ∃ record, (makeMove (runCalls [.makeMove 0 1, .makeMove 0 1]) 0 2).2.gameHistory
          = (runCalls [.makeMove 0 1, .makeMove 0 1]).gameHistory ++ [record]) ∧
      ((makeMove (runCalls [.makeMove 0 1, .makeMove 0 1]) 0 2).1.success = false →
        (makeMove (runCalls [.makeMove 0 1, .makeMove 0 1]) 0 2).2.gameHistory
          = (runCalls [.makeMove 0 1, .makeMove 0 1]).gameHistory) :=
  C8_history_matches_counter _ ⟨_, rfl⟩ 0 2

/-- C9: for every integer `N` with `1 <= N <= 12` and every prior state,
`setNumberOfDisks(N)` returns `success = true` with `minimumMoves = 2^N - 1`
and leaves `numberOfDisks = N`, `towers[0] = [N, N-1, ..., 1]` (`N` disks,
strictly descending, largest at the bottom), `towers[1]` and `towers[2]`
empty, `moveCount = 0`, an empty history, `isGameComplete = false` and
`bestScore = 2^N - 1`. -/
theorem C9_setNumberOfDisks_initialises (g : HanoiTowerGame) (N : Int) (h1 : 1 ≤ N)
    (h12 : N ≤ 12) :
    (setNumberOfDisks g N).1.success = true ∧
      (setNumberOfDisks g N).1.minimumMoves = some (2 ^ N.toNat - 1) ∧
      (setNumberOfDisks g N).2.numberOfDisks = N ∧
      (setNumberOfDisks g N).2.towers.t0 = (List.range N.toNat).map (fun (i : Nat) => N - (i : Int)) ∧
      ((setNumberOfDisks g N).2.towers.t0.length : Int) = N ∧
      (setNumberOfDisks g N).2.towers.t0.Pairwise (· > ·) ∧
      (setNumberOfDisks g N).2.towers.t0.head? = some N ∧
      (setNumberOfDisks g N).2.towers.t0.getLast? = some 1 ∧
      (setNumberOfDisks g N).2.towers.t1 = [] ∧
      (setNumberOfDisks g N).2.towers.t2 = [] ∧
      (setNumberOfDisks g N).2.moveCount = 0 ∧
      (setNumberOfDisks g N).2.gameHistory = [] ∧
      (setNumberOfDisks g N).2.isGameComplete = false ∧
      (setNumberOfDisks g N).2.bestScore = 2 ^ N.toNat - 1 := by
  have hst := setNumberOfDisks_state g N h1 h12
  have hres : (setNumberOfDisks g N).1.success = true ∧
      (setNumberOfDisks g N).1.minimumMoves = some (2 ^ N.toNat - 1) := by
    unfold setNumberOfDisks
    rw [if_neg (by omega)]
    simp only [initializeGame_eq, calculateMinimumMoves_of_pos N h1 (by omega), and_self]
  rw [hst]
  refine ⟨hres.1, hres.2, rfl, rfl, ?_, sorted_descending N, ?_, ?_, rfl, rfl, rfl, rfl, rfl,
    calculateMinimumMoves_of_pos N h1 (by omega)⟩
  · simp only [length_descending]; omega
  · simp only [descending_of_pos N h1, List.head?_cons]
  · exact getLast?_descending N h1

/-- Witness for C9: five disks requested on a freshly constructed game. -/
theorem C9_setNumberOfDisks_initialises_witness :
    (setNumberOfDisks newGame 5).1.success = true ∧
      (setNumberOfDisks newGame 5).1.minimumMoves = some (2 ^ (5 : Int).toNat - 1) ∧
      (setNumberOfDisks newGame 5).2.numberOfDisks = 5 ∧
      (setNumberOfDisks newGame 5).2.towers.t0
        = (List.range (5 : Int).toNat).map (fun (i : Nat) => 5 - (i : Int)) ∧
      ((setNumberOfDisks newGame 5).2.towers.t0.length : Int) = 5 ∧
      (setNumberOfDisks newGame 5).2.towers.t0.Pairwise (· > ·) ∧
      (setNumberOfDisks newGame 5).2.towers.t0.head? = some 5 ∧
      (setNumberOfDisks newGame 5).2.towers.t0.getLast? = some 1 ∧
      (setNumberOfDisks newGame 5).2.towers.t1 = [] ∧
      (setNumberOfDisks newGame 5).2.towers.t2 = [] ∧
      (setNumberOfDisks newGame 5).2.moveCount = 0 ∧
      (setNumberOfDisks newGame 5).2.gameHistory = [] ∧
      (setNumberOfDisks newGame 5).2.isGameComplete = false ∧
      (setNumberOfDisks newGame 5).2.bestScore = 2 ^ (5 : Int).toNat - 1 :=
  C9_setNumberOfDisks_initialises newGame 5 (by decide) (by decide)

/-- C10: for every integer `n` and every state, `setNumberOfDisks(n)` returns
`success = false` if and only if `n < 1` or `n > 12`, and in that case the
whole state is what it was before the call; in particular
`setNumberOfDisks(0)` and `setNumberOfDisks(13)` fail and change nothing. -/
theorem C10_disk_count_range_check (g : HanoiTowerGame) (n : Int) :
    ((setNumberOfDisks g n).1.success = false ↔ (n < 1 ∨ n > 12)) ∧
      ((setNumberOfDisks g n).1.success = false → (setNumberOfDisks g n).2 = g) ∧
      ((setNumberOfDisks g 0).1.success = false ∧ (setNumberOfDisks g 0).2 = g) ∧
      ((setNumberOfDisks g 13).1.success = false ∧ (setNumberOfDisks g 13).2 = g) := by
  have key : ∀ m : Int, ((setNumberOfDisks g m).1.success = false ↔ (m < 1 ∨ m > 12)) ∧
      ((setNumberOfDisks g m).1.success = false → (setNumberOfDisks g m).2 = g) := by
    intro m
    unfold setNumberOfDisks
    split_ifs with hm
    · simp [hm]
    · simp [hm]
  refine ⟨(key n).1, (key n).2, ?_, ?_⟩
  · have h0 := (key 0).1.mpr (by decide)
    exact ⟨h0, (key 0).2 h0⟩
  · have h13 := (key 13).1.mpr (by decide)
    exact ⟨h13, (key 13).2 h13⟩

theorem setNumberOfDisks_result (g : HanoiTowerGame) (n : Int) (h1 : 1 ≤ n) (h12 : n ≤ 12) :
    (setNumberOfDisks g n).1 =
      { success := true
        message := "Juego reiniciado con " ++ toString n ++ " discos - Dificultad: "
          ++ difficultyLevel (2 ^ n.toNat - 1)
        minimumMoves := some (2 ^ n.toNat - 1)
        formula := some ("T(" ++ toString n ++ ") = 2^" ++ toString n ++ " - 1 = "
          ++ toString ((2 : Int) ^ n.toNat - 1))
        difficultyLevel := some (difficultyLevel (2 ^ n.toNat - 1)) } := by
  unfold setNumberOfDisks
  rw [if_neg (by omega)]
  simp only [initializeGame_eq, calculateMinimumMoves_of_pos n h1 (by omega)]

theorem difficultyLevel_eq (m : Int) :
    difficultyLevel m =
      if m ≤ 31 then "Fácil" else if m ≤ 127 then "Intermedio"
      else if m ≤ 511 then "Difícil" else if m ≤ 2047 then "Experto" else "Maestro" := by
  unfold difficultyLevel
  dsimp only
  split_ifs <;> first | rfl | omega

/-- C11: for every `N` in `[1,12]` and every prior state, `setNumberOfDisks(N)`
returns the `difficultyLevel` determined by `m = 2^N - 1`: "Fácil" if
`m <= 31`, "Intermedio" if `31 < m <= 127`, "Difícil" if `127 < m <= 511`,
"Experto" if `511 < m <= 2047`, "Maestro" if `m > 2047`; that is, `N` in `1..5`
gives "Fácil", `6..7` "Intermedio", `8..9` "Difícil", `10..11` "Experto" and
`12` "Maestro". -/
theorem C11_difficulty_classification (g : HanoiTowerGame) (N : Int) (h1 : 1 ≤ N)
    (h12 : N ≤ 12) :
    (setNumberOfDisks g N).1.difficultyLevel =
        some (if (2 : Int) ^ N.toNat - 1 ≤ 31 then "Fácil"
          else if (2 : Int) ^ N.toNat - 1 ≤ 127 then "Intermedio"
          else if (2 : Int) ^ N.toNat - 1 ≤ 511 then "Difícil"
          else if (2 : Int) ^ N.toNat - 1 ≤ 2047 then "Experto" else "Maestro") ∧
      (setNumberOfDisks g N).1.difficultyLevel =
        some (if N ≤ 5 then "Fácil" else if N ≤ 7 then "Intermedio"
          else if N ≤ 9 then "Difícil" else if N ≤ 11 then "Experto" else "Maestro") := by
  rw [setNumberOfDisks_result g N h1 h12]
  simp only [difficultyLevel_eq, true_and]
  interval_cases N <;> decide

/-- Witness for C11: seven disks (127 moves) are "Intermedio". -/
theorem C11_difficulty_classification_witness :
    (setNumberOfDisks newGame 7).1.difficultyLevel =
        some (if (2 : Int) ^ (7 : Int).toNat - 1 ≤ 31 then "Fácil"
          else if (2 : Int) ^ (7 : Int).toNat - 1 ≤ 127 then "Intermedio"
          else if (2 : Int) ^ (7 : Int).toNat - 1 ≤ 511 then "Difícil"
          else if (2 : Int) ^ (7 : Int).toNat - 1 ≤ 2047 then "Experto" else "Maestro") ∧
      (setNumberOfDisks newGame 7).1.difficultyLevel =
        some (if (7 : Int) ≤ 5 then "Fácil" else if (7 : Int) ≤ 7 then "Intermedio"
          else if (7 : Int) ≤ 9 then "Difícil" else if (7 : Int) ≤ 11 then "Experto"
          else "Maestro") :=
  C11_difficulty_classification newGame 7 (by decide) (by decide)

/-- C12 as stated fails: `calculateMinimumMoves(54)` is `2^54`, not `2^54 - 1`,
because `2^54 - 1` is not a double and the subtraction rounds to `2^54`. -/
theorem C12_closed_form_counterexample :
    calculateMinimumMoves 54 = 18014398509481984 ∧
      calculateMinimumMoves 54 ≠ 2 ^ (54 : Int).toNat - 1 := by
  decide

/-- C12 (amended): for every integer `n` with `1 <= n <= 53`,
`calculateMinimumMoves(n) = 2^n - 1`, and for every integer `n <= 0` it is `0`;
hence `moves(1) = 1` and `moves(n) = 2 * moves(n-1) + 1` for `1 < n <= 53`. -/
theorem C12_closed_form (n : Int) :
    (1 ≤ n → n ≤ 53 → calculateMinimumMoves n = 2 ^ n.toNat - 1) ∧
      (n ≤ 0 → calculateMinimumMoves n = 0) ∧
      calculateMinimumMoves 1 = 1 ∧
      (1 < n → n ≤ 53 →
        calculateMinimumMoves n = 2 * calculateMinimumMoves (n - 1) + 1) := by
  refine ⟨calculateMinimumMoves_of_pos n, ?_, by decide, ?_⟩
  · intro h
    unfold calculateMinimumMoves
    rw [if_pos h]
  · intro h1 h53
    rw [calculateMinimumMoves_of_pos n (by omega) h53,
      calculateMinimumMoves_of_pos (n - 1) (by omega) (by omega)]
    have e : n.toNat = (n - 1).toNat + 1 := by omega
    rw [e, pow_succ]
    ring

/-- Witness for C12 at `n = 53`, the largest argument with an exact result, and
at `n = 0`. -/
theorem C12_closed_form_witness :
    calculateMinimumMoves 53 = 2 ^ (53 : Int).toNat - 1 ∧
      calculateMinimumMoves 0 = 0 ∧
      calculateMinimumMoves 53 = 2 * calculateMinimumMoves (53 - 1) + 1 :=
  ⟨(C12_closed_form 53).1 (by decide) (by decide), (C12_closed_form 0).2.1 (by decide),
    (C12_closed_form 53).2.2.2 (by decide) (by decide)⟩

theorem roundToDouble_of_range (x : Int) (h0 : 0 ≤ x) (h : x < 2 ^ 53) : roundToDouble x = x := by
  apply roundToDouble_of_small
  have : ((x.natAbs : Nat) : Int) < ((2 ^ 53 : Nat) : Int) := by
    rw [Int.natAbs_of_nonneg h0]
    exact_mod_cast h
  exact_mod_cast this

theorem two_pow_toNat_le (n : Int) (h53 : n ≤ 53) : (2 : Int) ^ n.toNat ≤ 2 ^ 53 := by
  have h2 : (2 : Nat) ^ n.toNat ≤ 2 ^ 53 := Nat.pow_le_pow_right (by decide) (by omega)
  exact_mod_cast h2

theorem one_le_two_pow_toNat (n : Int) : (1 : Int) ≤ 2 ^ n.toNat := by
  exact_mod_cast Nat.one_le_two_pow

theorem calculateMinimumMovesRecursiveFuel_of_pos (fuel : Nat) : ∀ n : Int, 1 ≤ n → n ≤ 53 →
    n.toNat ≤ fuel → calculateMinimumMovesRecursiveFuel fuel n = some (2 ^ n.toNat - 1) := by
  induction fuel with
  | zero => intro n h1 _ hf; omega
  | succ fuel ih =>
    intro n h1 h53 hf
    unfold calculateMinimumMovesRecursiveFuel
    by_cases hn : n = 1
    · subst hn
      rw [if_pos rfl]
      rfl
    · rw [if_neg hn, ih (n - 1) (by omega) (by omega) (by omega)]
      have e : n.toNat = (n - 1).toNat + 1 := by omega
      have hp52 : (2 : Int) ^ (n - 1).toNat ≤ 2 ^ 52 := by
        have h2 : (2 : Nat) ^ (n - 1).toNat ≤ 2 ^ 52 :=
          Nat.pow_le_pow_right (by decide) (by omega)
        exact_mod_cast h2
      have hq := one_le_two_pow_toNat (n - 1)
      have e52 : (2 : Int) ^ 53 = 2 * 2 ^ 52 := by norm_num
      simp only [Option.some.injEq]
      rw [roundToDouble_of_range (2 * (2 ^ (n - 1).toNat - 1)) (by omega) (by omega),
        roundToDouble_of_range _ (by omega) (by omega), e, pow_succ]
      ring

theorem calculateMinimumMovesRecursiveFuel_of_nonpos (fuel : Nat) : ∀ n : Int, n ≤ 0 →
    calculateMinimumMovesRecursiveFuel fuel n = none := by
  induction fuel with
  | zero => intro n _; rfl
  | succ fuel ih =>
    intro n h
    unfold calculateMinimumMovesRecursiveFuel
    rw [if_neg (by omega), ih (n - 1) (by omega)]

theorem validateFormulas_of_range (N : Int) (h1 : 1 ≤ N) (h12 : N ≤ 12) :
    calculateMinimumMovesRecursive N = some (calculateMinimumMoves N) ∧
      ∃ report, validateFormulas N = some report ∧ report.isValid = true ∧
        report.n = N ∧ report.closedForm = 2 ^ N.toNat - 1 ∧
        report.recursiveForm = 2 ^ N.toNat - 1 := by
  have hr : calculateMinimumMovesRecursive N = some (2 ^ N.toNat - 1) :=
    calculateMinimumMovesRecursiveFuel_of_pos N.toNat N h1 (by omega) (le_refl _)
  have hc := calculateMinimumMoves_of_pos N h1 (by omega)
  refine ⟨by rw [hr, hc], ?_⟩
  unfold validateFormulas
  rw [hr, hc]
  exact ⟨_, rfl, by simp, rfl, rfl, rfl⟩

/-- C13 evaluated on the code: at `N = 0` the closed form returns `0`, but
`calculateMinimumMovesRecursive(0)` calls itself with `-1, -2, ...` and never
reaches its only base case `n === 1`, whatever the recursion depth allowed, so
`validateFormulas(0)` returns no report.  For every `N` in `[1, 12]` the call
returns with `isValid = true`, both forms giving `2^N - 1`. -/
theorem C13_validateFormulas_zero_never_returns :
    (validateFormulas 0 = none ∧
      (∀ fuel : Nat, calculateMinimumMovesRecursiveFuel fuel 0 = none) ∧
      calculateMinimumMoves 0 = 0) ∧
    (∀ N : Int, 1 ≤ N → N ≤ 12 →
      calculateMinimumMovesRecursive N = some (calculateMinimumMoves N) ∧
      ∃ report, validateFormulas N = some report ∧ report.isValid = true ∧
        report.n = N ∧ report.closedForm = 2 ^ N.toNat - 1 ∧
        report.recursiveForm = 2 ^ N.toNat - 1) :=
  ⟨⟨by decide, fun fuel => calculateMinimumMovesRecursiveFuel_of_nonpos fuel 0 (le_refl _),
      by decide⟩,
    validateFormulas_of_range⟩

theorem getSolutionFuel_spec (fuel : Nat) : ∀ n s d a : Int, 1 ≤ n → n ≤ 17 → n.toNat ≤ fuel →
    ∃ ms, getSolutionFuel fuel n s d a = some ms ∧ ms.length + 1 = 2 ^ n.toNat ∧
      ∀ m ∈ ms, (1 ≤ m.disk ∧ m.disk ≤ n) ∧
        (m.fromTower = s ∨ m.fromTower = d ∨ m.fromTower = a) ∧
        (m.toTower = s ∨ m.toTower = d ∨ m.toTower = a) := by
  induction fuel with
  | zero => intro n s d a h1 _ hf; omega
  | succ fuel ih =>
    intro n s d a h1 h17 hf
    unfold getSolutionFuel
    by_cases hn : n = 1
    · subst hn
      rw [if_pos rfl]
      refine ⟨_, rfl, by simp, ?_⟩
      intro m hm
      rw [List.mem_singleton] at hm
      subst hm
      simp
    · rw [if_neg hn]
      obtain ⟨ms1, e1, l1, p1⟩ := ih (n - 1) s a d (by omega) (by omega) (by omega)
      obtain ⟨ms3, e3, l3, p3⟩ := ih (n - 1) a d s (by omega) (by omega) (by omega)
      rw [e1]
      dsimp only
      rw [if_neg (length_le_maxSpreadArguments _ _ l1 (by omega)), e3]
      dsimp only
      rw [if_neg (length_le_maxSpreadArguments _ _ l3 (by omega))]
      refine ⟨_, rfl, ?_, ?_⟩
      · have e : n.toNat = (n - 1).toNat + 1 := by omega
        rw [e, pow_succ]
        simp only [List.length_append, List.length_singleton]
        omega
      · intro m hm
        simp only [List.mem_append, List.mem_singleton] at hm
        rcases hm with (hm | hm) | hm
        · obtain ⟨hd, hf, ht⟩ := p1 m hm
          exact ⟨by omega, by tauto, by tauto⟩
        · subst hm
          exact ⟨by simp; omega, by simp, by simp⟩
        · obtain ⟨hd, hf, ht⟩ := p3 m hm
          exact ⟨by omega, by tauto, by tauto⟩

theorem length_eq_of_succ_eq_two_pow (len k : Nat) (h : len + 1 = 2 ^ k) :
    ((len : Nat) : Int) = 2 ^ k - 1 := by
  have : ((len + 1 : Nat) : Int) = ((2 ^ k : Nat) : Int) := by rw [h]
  push_cast at this
  omega

theorem getSolutionFuel_of_long_first (fuel : Nat) (n s d a : Int) (sub : List SolutionMove)
    (hn : n ≠ 1) (e : getSolutionFuel fuel (n - 1) s a d = some sub)
    (hgt : sub.length > maxSpreadArguments) : getSolutionFuel (fuel + 1) n s d a = none := by
  unfold getSolutionFuel
  rw [if_neg hn, e]
  dsimp only
  rw [if_pos hgt]

/-- C14 as stated fails at `N = 18`: the first sub-solution (17 disks) has
`2^17 - 1 = 131071` moves, more than `moves.push(...sub)` can take as
arguments, so the push throws and `getSolution(18, 0, 1, 2)` returns no list. -/
theorem C14_solver_length_counterexample :
    getSolution 18 0 1 2 = none ∧
      ∃ sub, getSolution 17 0 2 1 = some sub ∧ sub.length = 131071 ∧
        sub.length > maxSpreadArguments := by
  have t17 : (17 : Int).toNat = 17 := by decide
  have t18 : (18 : Int).toNat = 17 + 1 := by decide
  have s17 : (18 : Int) - 1 = 17 := by decide
  obtain ⟨sub, e, l, -⟩ := getSolutionFuel_spec 17 17 0 2 1 (by decide) (by decide)
    (by rw [t17])
  have hl : sub.length = 131071 := by
    have h17 : (2 : Nat) ^ 17 = 131072 := by norm_num
    rw [t17, h17] at l
    omega
  have hgt : sub.length > maxSpreadArguments := by
    rw [hl]
    unfold maxSpreadArguments
    omega
  refine ⟨?_, sub, ?_, hl, hgt⟩
  · unfold getSolution
    rw [t18]
    exact getSolutionFuel_of_long_first 17 18 0 1 2 sub (by decide) (by rw [s17]; exact e) hgt
  · unfold getSolution
    rw [t17]
    exact e

/-- C14 (amended): for every integer `N` with `1 <= N <= 17` and every choice
of peg indices, `getSolution(N, source, destination, auxiliary)` returns a list
of exactly `2^N - 1` moves, which is `calculateMinimumMoves(N)`, each with a
disk id in `1..N` and with `from` and `to` taken from the three indices. -/
theorem C14_solver_length (N s d a : Int) (h1 : 1 ≤ N) (h17 : N ≤ 17) :
    ∃ ms, getSolution N s d a = some ms ∧ (ms.length : Int) = 2 ^ N.toNat - 1 ∧
      (ms.length : Int) = calculateMinimumMoves N ∧
      ∀ m ∈ ms, (1 ≤ m.disk ∧ m.disk ≤ N) ∧
        (m.fromTower = s ∨ m.fromTower = d ∨ m.fromTower = a) ∧
        (m.toTower = s ∨ m.toTower = d ∨ m.toTower = a) := by
  obtain ⟨ms, e, l, p⟩ := getSolutionFuel_spec N.toNat N s d a h1 h17 (le_refl _)
  have hl := length_eq_of_succ_eq_two_pow _ _ l
  exact ⟨ms, e, hl, by rw [hl, calculateMinimumMoves_of_pos N h1 (by omega)], p⟩

/-- Witness for C14: seventeen disks, the largest count the solver returns
for, between the pegs 2, 0 and 1. -/
theorem C14_solver_length_witness :
    ∃ ms, getSolution 17 2 0 1 = some ms ∧ (ms.length : Int) = 2 ^ (17 : Int).toNat - 1 ∧
      (ms.length : Int) = calculateMinimumMoves 17 ∧
      ∀ m ∈ ms, (1 ≤ m.disk ∧ m.disk ≤ 17) ∧
        (m.fromTower = 2 ∨ m.fromTower = 0 ∨ m.fromTower = 1) ∧
        (m.toTower = 2 ∨ m.toTower = 0 ∨ m.toTower = 1) :=
  C14_solver_length 17 2 0 1 (by decide) (by decide)

/-- C15: from every reachable state, `resetGame()` returns `success = true` and
leaves exactly the state that `setNumberOfDisks(numberOfDisks)` produces for
the current `numberOfDisks = N` (from any prior state): towers
`[[N..1], [], []]`, `moveCount = 0`, empty history, `isGameComplete = false`,
`bestScore = 2^N - 1`, `numberOfDisks` unchanged; a second `resetGame()` gives
the same state as the first. -/
theorem C15_reset_restores_initial_state (g : HanoiTowerGame) (h : Reachable g) :
    (resetGame g).1.success = true ∧
      (∀ g0 : HanoiTowerGame, (resetGame g).2 = (setNumberOfDisks g0 g.numberOfDisks).2) ∧
      (resetGame g).2 =
        { towers := ⟨descending g.numberOfDisks, [], []⟩
          numberOfDisks := g.numberOfDisks
          moveCount := 0
          bestScore := 2 ^ g.numberOfDisks.toNat - 1
          gameHistory := []
          isGameComplete := false } ∧
      (resetGame (resetGame g).2).2 = (resetGame g).2 := by
  have hi := inv_of_reachable h
  have hb := calculateMinimumMoves_of_pos g.numberOfDisks hi.disksLower
    (by have := hi.disksUpper; omega)
  refine ⟨rfl, ?_, ?_, ?_⟩
  · intro g0
    rw [setNumberOfDisks_state g0 _ hi.disksLower hi.disksUpper]
    exact initializeGame_eq g
  · show initializeGame g = _
    rw [initializeGame_eq, hb]
  · show initializeGame (initializeGame g) = initializeGame g
    simp only [initializeGame_eq]

/-- Witness for C15: reset after two moves of a 4-disk game. -/
theorem C15_reset_restores_initial_state_witness :
    (resetGame (runCalls [.setNumberOfDisks 4, .makeMove 0 1, .makeMove 0 2])).2 =
      { towers := ⟨[4, 3, 2, 1], [], []⟩
        numberOfDisks := 4
        moveCount := 0
        bestScore := 15
        gameHistory := []
        isGameComplete := false } :=
  (C15_reset_restores_initial_state _ ⟨_, rfl⟩).2.2.1

/-- C16: `getSolution(3, 0, 1, 2)` is exactly the 7-move sequence
(disk, from, to) = (1,0,1), (2,0,2), (1,1,2), (3,0,1), (1,2,0), (2,2,1),
(1,0,1), in that order, and `calculateMinimumMoves(3) = 7`. -/
theorem C16_canonical_three_disk_solution :
    (getSolution 3 0 1 2).map (fun ms => ms.map SolutionMove.key)
        = some [(1, 0, 1), (2, 0, 2), (1, 1, 2), (3, 0, 1), (1, 2, 0), (2, 2, 1), (1, 0, 1)] ∧
      (getSolution 3 0 1 2).map List.length = some 7 ∧
      (getSolution 3 0 1 2).map (fun ms => ms.map (fun m => m.description))
        = some ["Mover disco 1 de torre 1 a torre 2", "Mover disco 2 de torre 1 a torre 3",
            "Mover disco 1 de torre 2 a torre 3", "Mover disco 3 de torre 1 a torre 2",
            "Mover disco 1 de torre 3 a torre 1", "Mover disco 2 de torre 3 a torre 2",
            "Mover disco 1 de torre 1 a torre 2"] ∧
      calculateMinimumMoves 3 = 7 := by
  decide

theorem towers_of_complete (g : HanoiTowerGame) (hi : Inv g) (hc : g.isGameComplete = true) :
    g.towers.t1 = descending g.numberOfDisks ∧ g.towers.t0 = [] ∧ g.towers.t2 = [] := by
  rw [hi.flag] at hc
  simp only [checkGameCompletion, Towers.get_zero, Towers.get_one, Towers.get_two,
    Bool.and_eq_true, decide_eq_true_eq, List.length_eq_zero] at hc
  obtain ⟨⟨-, h0⟩, h2⟩ := hc
  refine ⟨?_, h0, h2⟩
  have hp := hi.perm
  rw [h0, h2] at hp
  simp only [List.nil_append, List.append_nil] at hp
  exact List.eq_of_perm_of_sorted hp (hi.sorted 1) (sorted_descending _)

theorem descending_eq_snoc (n : Int) (h : 1 ≤ n) :
    ∃ rest, descending n = rest ++ [1] ∧ rest.length + 1 = n.toNat := by
  have hne : descending n ≠ [] := by rw [descending_of_pos n h]; simp
  have hl : (descending n).getLast hne = 1 := by
    have := getLast?_descending n h
    rw [List.getLast?_eq_getLast _ hne] at this
    exact Option.some.inj this
  refine ⟨(descending n).dropLast, ?_, ?_⟩
  · rw [← hl, List.dropLast_append_getLast]
  · rw [List.length_dropLast, length_descending]
    omega

theorem makeMove_after_completion (g : HanoiTowerGame) (hi : Inv g)
    (hc : g.isGameComplete = true) (t : Int) (ht : t = 0 ∨ t = 2) :
    isValidMove g 1 t = .valid 1 ∧ (makeMove g 1 t).1.success = true ∧
      (makeMove g 1 t).1.isComplete = some false ∧
      (makeMove g 1 t).2.moveCount = g.moveCount + 1 ∧
      (makeMove g 1 t).2.gameHistory.length = g.gameHistory.length + 1 ∧
      (makeMove g 1 t).2.isGameComplete = false := by
  obtain ⟨h1, h0, h2⟩ := towers_of_complete g hi hc
  obtain ⟨rest, hrest, hlen⟩ := descending_eq_snoc g.numberOfDisks hi.disksLower
  have hv : isValidMove g 1 t = .valid 1 := by
    rw [isValidMove_valid_iff]
    refine ⟨by omega, by omega, ⟨rest, by rw [Towers.get_one, h1, hrest]⟩, Or.inl ?_⟩
    rcases ht with rfl | rfl
    · exact h0
    · exact h2
  obtain ⟨rest1, hr1, he⟩ := makeMove_of_valid hv
  have hrr : rest1 = rest := by
    rw [Towers.get_one, h1, hrest] at hr1
    exact (List.append_inj_left' hr1 rfl).symm
  subst hrr
  have hflag : (makeMove g 1 t).2.isGameComplete = false := by
    rw [he]
    have hN := hi.disksLower
    rcases ht with rfl | rfl <;>
      simp [checkGameCompletion, Towers.get, Towers.set]
  refine ⟨hv, ?_, ?_, ?_, ?_, hflag⟩
  · rw [he]
  · rw [← hflag, he]
  · rw [he]; rfl
  · rw [he]; simp [checkGameCompletion]

theorem makeMove_ignores_flag (g : HanoiTowerGame) (b : Bool) (f t : Int) :
    (makeMove { g with isGameComplete := b } f t).1 = (makeMove g f t).1 ∧
      ((makeMove g f t).1.success = true →
        (makeMove { g with isGameComplete := b } f t).2 = (makeMove g f t).2) ∧
      ((makeMove g f t).1.success = false →
        (makeMove { g with isGameComplete := b } f t).2 = { g with isGameComplete := b }) := by
  have hv : isValidMove { g with isGameComplete := b } f t = isValidMove g f t := rfl
  cases hg : isValidMove g f t with
  | invalid reason =>
    rw [makeMove_of_invalid hg, makeMove_of_invalid (hv.trans hg)]
    simp
  | valid d =>
    obtain ⟨rest, hr, he⟩ := makeMove_of_valid hg
    obtain ⟨rest1, hr1, he1⟩ := makeMove_of_valid (hv.trans hg)
    have : rest1 = rest := by
      have e : g.towers.get f = rest1 ++ [d] := hr1
      rw [hr] at e
      exact (List.append_inj_left' e rfl).symm
    subst this
    rw [he, he1]
    simp [checkGameCompletion]

/-- C17: `makeMove` never consults `isGameComplete` (its result, and its state
after an accepted move, do not depend on the flag); in every reachable state in
which `isGameComplete` is true, `makeMove(1, 0)` and `makeMove(1, 2)` are both
accepted, the move counter and the history advance by one, and the completion
flag is re-evaluated to false. -/
theorem C17_moves_after_completion (g : HanoiTowerGame) (h : Reachable g)
    (hc : g.isGameComplete = true) :
    (∀ (g0 : HanoiTowerGame) (b : Bool) (f t : Int),
        (makeMove { g0 with isGameComplete := b } f t).1 = (makeMove g0 f t).1 ∧
        ((makeMove g0 f t).1.success = true →
          (makeMove { g0 with isGameComplete := b } f t).2 = (makeMove g0 f t).2)) ∧
      ((makeMove g 1 0).1.success = true ∧
        (makeMove g 1 0).1.isComplete = some false ∧
        (makeMove g 1 0).2.moveCount = g.moveCount + 1 ∧
        (makeMove g 1 0).2.gameHistory.length = g.gameHistory.length + 1 ∧
        (makeMove g 1 0).2.isGameComplete = false) ∧
      ((makeMove g 1 2).1.success = true ∧
        (makeMove g 1 2).1.isComplete = some false ∧
        (makeMove g 1 2).2.moveCount = g.moveCount + 1 ∧
        (makeMove g 1 2).2.gameHistory.length = g.gameHistory.length + 1 ∧
        (makeMove g 1 2).2.isGameComplete = false) :=
  ⟨fun g0 b f t => ⟨(makeMove_ignores_flag g0 b f t).1, (makeMove_ignores_flag g0 b f t).2.1⟩,
    (makeMove_after_completion g (inv_of_reachable h) hc 0 (Or.inl rfl)).2,
    (makeMove_after_completion g (inv_of_reachable h) hc 2 (Or.inr rfl)).2⟩

/-- Witness for C17: the completed 3-disk game (seven moves of the solution),
where the next `makeMove(1, 0)` is accepted as move 8. -/
theorem C17_moves_after_completion_witness :
    (runCalls [.makeMove 0 1, .makeMove 0 2, .makeMove 1 2, .makeMove 0 1, .makeMove 2 0,
        .makeMove 2 1, .makeMove 0 1]).isGameComplete = true ∧
      (makeMove (runCalls [.makeMove 0 1, .makeMove 0 2, .makeMove 1 2, .makeMove 0 1,
        .makeMove 2 0, .makeMove 2 1, .makeMove 0 1]) 1 0).1.success = true ∧
      (makeMove (runCalls [.makeMove 0 1, .makeMove 0 2, .makeMove 1 2, .makeMove 0 1,
        .makeMove 2 0, .makeMove 2 1, .makeMove 0 1]) 1 0).2.moveCount = 8 ∧
      (makeMove (runCalls [.makeMove 0 1, .makeMove 0 2, .makeMove 1 2, .makeMove 0 1,
        .makeMove 2 0, .makeMove 2 1, .makeMove 0 1]) 1 0).2.isGameComplete = false :=
  ⟨by decide,
    (C17_moves_after_completion _ ⟨_, rfl⟩ (by decide)).2.1.1,
    (C17_moves_after_completion _ ⟨_, rfl⟩ (by decide)).2.1.2.2.1,
    (C17_moves_after_completion _ ⟨_, rfl⟩ (by decide)).2.1.2.2.2.2⟩

theorem two_moves_restore (tw : Towers) (a b d : Int) (rest : List Int)
    (ha0 : 0 ≤ a) (ha2 : a ≤ 2) (hb0 : 0 ≤ b) (hb2 : b ≤ 2) (hne : a ≠ b)
    (hr : tw.get a = rest ++ [d]) :
    (((tw.set a rest).set b (tw.get b ++ [d])).set b (tw.get b)).set a (rest ++ [d]) = tw := by
  have ca : a = 0 ∨ a = 1 ∨ a = 2 := by omega
  have cb : b = 0 ∨ b = 1 ∨ b = 2 := by omega
  rcases ca with rfl | rfl | rfl <;> rcases cb with rfl | rfl | rfl <;>
    first
    | exact absurd rfl hne
    | (simp only [Towers.get, Towers.set] at hr ⊢
       simp at hr ⊢
       rw [← hr])

/-- C20: in every reachable state, if `makeMove(a, b)` succeeds then an
immediately following `makeMove(b, a)` also succeeds and restores the three
towers exactly to their configuration before the first move; `moveCount` is
then 2 higher and the history 2 records longer. -/
theorem C20_accepted_move_is_undoable (g : HanoiTowerGame) (h : Reachable g) (a b : Int)
    (hs : (makeMove g a b).1.success = true) :
    (makeMove (makeMove g a b).2 b a).1.success = true ∧
      (makeMove (makeMove g a b).2 b a).2.towers = g.towers ∧
      (makeMove (makeMove g a b).2 b a).2.moveCount = g.moveCount + 2 ∧
      (makeMove (makeMove g a b).2 b a).2.gameHistory.length = g.gameHistory.length + 2 := by
  have hi := inv_of_reachable h
  obtain ⟨d, hv⟩ := (makeMove_success_iff g a b).mp hs
  obtain ⟨⟨ha0, ha2, hb0, hb2⟩, hne, -, -⟩ := (isValidMove_valid_iff g a b d).mp hv
  obtain ⟨rest, hr, he⟩ := makeMove_of_valid hv
  have hsorted := hi.sorted a
  rw [hr] at hsorted
  -- the state after the first move
  have ht1 : (makeMove g a b).2.towers
      = (g.towers.set a rest).set b (g.towers.get b ++ [d]) := by rw [he]; rfl
  have hga : (makeMove g a b).2.towers.get a = rest := by
    rw [ht1, Towers.get_set_other _ _ _ _ (Ne.symm hne), Towers.get_set_same _ _ _ ha0 ha2]
  have hgb : (makeMove g a b).2.towers.get b = g.towers.get b ++ [d] := by
    rw [ht1, Towers.get_set_same _ _ _ hb0 hb2]
  have hm1 : (makeMove g a b).2.moveCount = g.moveCount + 1 := by rw [he]; rfl
  have hh1 : (makeMove g a b).2.gameHistory.length = g.gameHistory.length + 1 := by
    rw [he]; simp [checkGameCompletion]
  -- the move back is valid
  have hv2 : isValidMove (makeMove g a b).2 b a = .valid d := by
    rw [isValidMove_valid_iff]
    refine ⟨⟨hb0, hb2, ha0, ha2⟩, Ne.symm hne, ⟨_, hgb⟩, ?_⟩
    rw [hga]
    rcases List.eq_nil_or_concat rest with h | ⟨r, e, h⟩
    · exact Or.inl h
    · rw [List.concat_eq_append] at h
      refine Or.inr ⟨r, e, h, ?_⟩
      rw [List.pairwise_append] at hsorted
      exact hsorted.2.2 e (by rw [h]; simp) d (List.mem_singleton_self d)
  obtain ⟨rest2, hr2, he2⟩ := makeMove_of_valid hv2
  have hrest2 : rest2 = g.towers.get b := by
    rw [hgb] at hr2
    exact (List.append_inj_left' hr2 rfl).symm
  subst hrest2
  refine ⟨(makeMove_success_iff _ b a).mpr ⟨d, hv2⟩, ?_, ?_, ?_⟩
  · rw [he2]
    show ((makeMove g a b).2.towers.set b (g.towers.get b)).set a
      ((makeMove g a b).2.towers.get a ++ [d]) = g.towers
    rw [hga, ht1]
    exact two_moves_restore g.towers a b d rest ha0 ha2 hb0 hb2 hne hr
  · rw [he2]
    show (makeMove g a b).2.moveCount + 1 = g.moveCount + 2
    rw [hm1]
  · rw [he2]
    simp [checkGameCompletion, hh1]

/-- Witness for C20: on the state after `makeMove(0, 1)` of a fresh game, the
move `makeMove(0, 2)` of disk 2 and its undo. -/
theorem C20_accepted_move_is_undoable_witness :
    (makeMove (makeMove (runCalls [.makeMove 0 1]) 0 2).2 2 0).1.success = true ∧
      (makeMove (makeMove (runCalls [.makeMove 0 1]) 0 2).2 2 0).2.towers
        = (runCalls [.makeMove 0 1]).towers ∧
      (makeMove (makeMove (runCalls [.makeMove 0 1]) 0 2).2 2 0).2.moveCount
        = (runCalls [.makeMove 0 1]).moveCount + 2 ∧
      (makeMove (makeMove (runCalls [.makeMove 0 1]) 0 2).2 2 0).2.gameHistory.length
        = (runCalls [.makeMove 0 1]).gameHistory.length + 2 :=
  C20_accepted_move_is_undoable _ ⟨_, rfl⟩ 0 2 (by decide)

/-- C19 evaluated on the code: for 5, 9 and 11 disks the level returned by
`setNumberOfDisks` ("Fácil", "Difícil", "Experto") is not the label of the
table printed by `demonstrateFormulas` ("Intermedio", "Experto", "Maestro");
for 6, 10 and 12 disks the two agree. -/
theorem C19_difficulty_table_mismatch :
    ((setNumberOfDisks newGame 5).1.difficultyLevel = some "Fácil" ∧
        tableLevel 5 = some "Intermedio") ∧
      ((setNumberOfDisks newGame 9).1.difficultyLevel = some "Difícil" ∧
        tableLevel 9 = some "Experto") ∧
      ((setNumberOfDisks newGame 11).1.difficultyLevel = some "Experto" ∧
        tableLevel 11 = some "Maestro") ∧
      (setNumberOfDisks newGame 6).1.difficultyLevel = tableLevel 6 ∧
      (setNumberOfDisks newGame 10).1.difficultyLevel = tableLevel 10 ∧
      (setNumberOfDisks newGame 12).1.difficultyLevel = tableLevel 12 := by
  decide

theorem pegOf_range (tw : Towers) (x : Int) : 0 ≤ pegOf tw x ∧ pegOf tw x ≤ 2 := by
  unfold pegOf
  split_ifs <;> omega

theorem movesNeeded_all_on (tw : Towers) (q : Int) (hq0 : 0 ≤ q) (hq2 : q ≤ 2) :
    ∀ (k : Nat) (p : Int), (∀ x : Int, 1 ≤ x → x ≤ k → pegOf tw x = q) → 0 ≤ p → p ≤ 2 →
      movesNeeded k tw p = if p = q then 0 else 2 ^ k - 1 := by
  intro k
  induction k with
  | zero => intro p _ _ _; simp [movesNeeded]
  | succ k ih =>
    intro p hall hp0 hp2
    have hk : pegOf tw ((k + 1 : Nat) : Int) = q := hall _ (by omega) (le_refl _)
    have hall1 : ∀ x : Int, 1 ≤ x → x ≤ k → pegOf tw x = q :=
      fun x h1 h2 => hall x h1 (by push_cast; omega)
    unfold movesNeeded
    rw [hk]
    have hpow := Nat.one_le_two_pow (n := k)
    by_cases hpq : q = p
    · rw [if_pos hpq, ih p hall1 hp0 hp2, if_pos hpq.symm, if_pos hpq.symm]
    · rw [if_neg hpq, ih (3 - p - q) hall1 (by omega) (by omega), if_neg (by omega),
        if_neg (fun h => hpq h.symm), pow_succ]
      omega

theorem movesNeeded_le_succ (tw tw1 : Towers) (d f t : Int)
    (hf0 : 0 ≤ f) (hf2 : f ≤ 2) (ht0 : 0 ≤ t) (ht2 : t ≤ 2) (hne : f ≠ t)
    (hsame : ∀ x : Int, x ≠ d → pegOf tw1 x = pegOf tw x)
    (hfrom : pegOf tw d = f) (hto : pegOf tw1 d = t)
    (hsmall : ∀ x : Int, 1 ≤ x → x < d → pegOf tw x = 3 - f - t) :
    ∀ (k : Nat) (p : Int), 0 ≤ p → p ≤ 2 → movesNeeded k tw p ≤ movesNeeded k tw1 p + 1 := by
  intro k
  induction k with
  | zero => intro p _ _; simp [movesNeeded]
  | succ k ih =>
    intro p hp0 hp2
    by_cases hkd : ((k + 1 : Nat) : Int) = d
    · -- disk k+1 is the disk that moves; the smaller disks are on the third tower
      have hall : ∀ x : Int, 1 ≤ x → x ≤ k → pegOf tw x = 3 - f - t :=
        fun x h1 h2 => hsmall x h1 (by omega)
      have hall1 : ∀ x : Int, 1 ≤ x → x ≤ k → pegOf tw1 x = 3 - f - t :=
        fun x h1 h2 => by rw [hsame x (by omega)]; exact hall x h1 h2
      have hpow := Nat.one_le_two_pow (n := k)
      unfold movesNeeded
      rw [hkd, hfrom, hto]
      have hA := fun q h0 h2 =>
        movesNeeded_all_on tw (3 - f - t) (by omega) (by omega) k q hall h0 h2
      have hB := fun q h0 h2 =>
        movesNeeded_all_on tw1 (3 - f - t) (by omega) (by omega) k q hall1 h0 h2
      by_cases hpf : f = p
      · subst hpf
        rw [if_pos rfl, if_neg (Ne.symm hne), hA f hf0 hf2, hB (3 - f - t) (by omega) (by omega),
          if_neg (by omega), if_pos rfl]
        omega
      · by_cases hpt : t = p
        · subst hpt
          rw [if_neg hpf, if_pos rfl, hA (3 - t - f) (by omega) (by omega), hB t ht0 ht2,
            if_pos (by omega), if_neg (by omega)]
          omega
        · rw [if_neg hpf, if_neg hpt, hA (3 - p - f) (by omega) (by omega),
            hB (3 - p - t) (by omega) (by omega), if_neg (by omega), if_neg (by omega)]
          omega
    · -- disk k+1 stays where it is
      unfold movesNeeded
      rw [hsame _ hkd]
      have hr := pegOf_range tw ((k + 1 : Nat) : Int)
      by_cases hq : pegOf tw ((k + 1 : Nat) : Int) = p
      · rw [if_pos hq, if_pos hq]
        exact ih p hp0 hp2
      · rw [if_neg hq, if_neg hq]
        have := ih (3 - p - pegOf tw ((k + 1 : Nat) : Int)) (by omega) (by omega)
        omega

theorem mem_towers_iff (tw : Towers) (x : Int) :
    x ∈ tw.t0 ++ tw.t1 ++ tw.t2 ↔ x ∈ tw.get 0 ∨ x ∈ tw.get 1 ∨ x ∈ tw.get 2 := by
  simp only [List.mem_append, Towers.get_zero, Towers.get_one, Towers.get_two, or_assoc]

theorem pegOf_of_mem (tw : Towers) (hn : (tw.t0 ++ tw.t1 ++ tw.t2).Nodup) (i x : Int)
    (hi0 : 0 ≤ i) (hi2 : i ≤ 2) (hx : x ∈ tw.get i) : pegOf tw x = i := by
  rw [List.nodup_append, List.nodup_append] at hn
  obtain ⟨⟨-, -, h01⟩, -, h012⟩ := hn
  have ci : i = 0 ∨ i = 1 ∨ i = 2 := by omega
  unfold pegOf
  rcases ci with rfl | rfl | rfl
  · rw [Towers.get_zero] at hx
    rw [if_pos hx]
  · rw [Towers.get_one] at hx
    have : x ∉ tw.t0 := fun h => h01 h hx
    rw [if_neg this, if_pos hx]
  · rw [Towers.get_two] at hx
    have h0 : x ∉ tw.t0 := fun h => h012 (List.mem_append_left _ h) hx
    have h1 : x ∉ tw.t1 := fun h => h012 (List.mem_append_right _ h) hx
    rw [if_neg h0, if_neg h1]

theorem nodup_of_inv {g : HanoiTowerGame} (hi : Inv g) :
    (g.towers.t0 ++ g.towers.t1 ++ g.towers.t2).Nodup :=
  hi.perm.nodup_iff.mpr
    ((sorted_descending g.numberOfDisks).imp (fun {a b} (hab : a > b) => ne_of_gt hab))

theorem potential_makeMove (g : HanoiTowerGame) (hi : Inv g) (f t : Int) (c : Nat)
    (hp : c ≤ movesNeeded g.numberOfDisks.toNat g.towers 1 + g.moveCount) :
    c ≤ movesNeeded (makeMove g f t).2.numberOfDisks.toNat (makeMove g f t).2.towers 1
      + (makeMove g f t).2.moveCount := by
  cases hv : isValidMove g f t with
  | invalid reason => rw [makeMove_of_invalid hv]; exact hp
  | valid d =>
    have hi1 := inv_makeMove g f t hi
    obtain ⟨rest, hr, he⟩ := makeMove_of_valid hv
    obtain ⟨⟨hf0, hf2, ht0, ht2⟩, hne, -, hdest⟩ := (isValidMove_valid_iff g f t d).mp hv
    have htw : (makeMove g f t).2.towers
        = (g.towers.set f rest).set t (g.towers.get t ++ [d]) := by rw [he]; rfl
    have hN : (makeMove g f t).2.numberOfDisks = g.numberOfDisks := by rw [he]; rfl
    have hM : (makeMove g f t).2.moveCount = g.moveCount + 1 := by rw [he]; rfl
    have hgf : (makeMove g f t).2.towers.get f = rest := by
      rw [htw, Towers.get_set_other _ _ _ _ (Ne.symm hne), Towers.get_set_same _ _ _ hf0 hf2]
    have hgt : (makeMove g f t).2.towers.get t = g.towers.get t ++ [d] := by
      rw [htw, Towers.get_set_same _ _ _ ht0 ht2]
    have hgo : ∀ i : Int, i ≠ f → i ≠ t → (makeMove g f t).2.towers.get i = g.towers.get i := by
      intro i h1 h2
      rw [htw, Towers.get_set_other _ _ _ _ (Ne.symm h2),
        Towers.get_set_other _ _ _ _ (Ne.symm h1)]
    -- membership of the other disks is unchanged
    have hmem : ∀ (x i : Int), x ≠ d →
        (x ∈ (makeMove g f t).2.towers.get i ↔ x ∈ g.towers.get i) := by
      intro x i hx
      by_cases hit : i = t
      · subst hit; rw [hgt]; simp [hx]
      · by_cases hif : i = f
        · subst hif; rw [hgf, hr]; simp [hx]
        · rw [hgo i hif hit]
    have hsame : ∀ x : Int, x ≠ d → pegOf (makeMove g f t).2.towers x = pegOf g.towers x := by
      intro x hx
      have h0 := hmem x 0 hx
      have h1 := hmem x 1 hx
      rw [Towers.get_zero, Towers.get_zero] at h0
      rw [Towers.get_one, Towers.get_one] at h1
      unfold pegOf
      simp only [h0, h1]
    have hfrom : pegOf g.towers d = f :=
      pegOf_of_mem g.towers (nodup_of_inv hi) f d hf0 hf2 (by rw [hr]; simp)
    have hto : pegOf (makeMove g f t).2.towers d = t :=
      pegOf_of_mem _ (nodup_of_inv hi1) t d ht0 ht2 (by rw [hgt]; simp)
    have hdN : d ≤ g.numberOfDisks := by
      have : d ∈ g.towers.t0 ++ g.towers.t1 ++ g.towers.t2 := by
        rw [mem_towers_iff]
        have cf : f = 0 ∨ f = 1 ∨ f = 2 := by omega
        have hd : d ∈ g.towers.get f := by rw [hr]; simp
        rcases cf with rfl | rfl | rfl
        · exact Or.inl hd
        · exact Or.inr (Or.inl hd)
        · exact Or.inr (Or.inr hd)
      exact ((mem_descending _ _).mp (hi.perm.mem_iff.mp this)).2
    have hsmall : ∀ x : Int, 1 ≤ x → x < d → pegOf g.towers x = 3 - f - t := by
      intro x hx1 hxd
      have hnf : x ∉ g.towers.get f := by
        intro hx
        have hs := hi.sorted f
        rw [hr] at hs hx
        rw [List.pairwise_append] at hs
        rcases List.mem_append.mp hx with hx | hx
        · have : x > d := hs.2.2 x hx d (List.mem_singleton_self d)
          omega
        · rw [List.mem_singleton] at hx; omega
      have hnt : x ∉ g.towers.get t := by
        intro hx
        rcases hdest with h | ⟨r, e, h, hlt⟩
        · rw [h] at hx; simp at hx
        · have hs := hi.sorted t
          rw [h] at hs hx
          rw [List.pairwise_append] at hs
          rcases List.mem_append.mp hx with hx | hx
          · have : x > e := hs.2.2 x hx e (List.mem_singleton_self e)
            omega
          · rw [List.mem_singleton] at hx; omega
      have hx : x ∈ g.towers.t0 ++ g.towers.t1 ++ g.towers.t2 :=
        hi.perm.mem_iff.mpr ((mem_descending _ _).mpr ⟨hx1, by omega⟩)
      rw [mem_towers_iff] at hx
      have key : x ∈ g.towers.get (3 - f - t) := by
        have cf : f = 0 ∨ f = 1 ∨ f = 2 := by omega
        have ct : t = 0 ∨ t = 1 ∨ t = 2 := by omega
        rcases cf with rfl | rfl | rfl <;> rcases ct with rfl | rfl | rfl <;>
          first
          | exact absurd rfl hne
          | (rcases hx with hx | hx | hx <;>
              first
              | exact absurd hx hnf
              | exact absurd hx hnt
              | exact hx)
      exact pegOf_of_mem g.towers (nodup_of_inv hi) _ x (by omega) (by omega) key
    have hstep := movesNeeded_le_succ g.towers (makeMove g f t).2.towers d f t hf0 hf2 ht0 ht2
      hne hsame hfrom hto hsmall g.numberOfDisks.toNat 1 (by decide) (by decide)
    rw [hN, hM]
    omega

theorem makeMove_numberOfDisks (g : HanoiTowerGame) (f t : Int) :
    (makeMove g f t).2.numberOfDisks = g.numberOfDisks := by
  cases hv : isValidMove g f t with
  | invalid reason => rw [makeMove_of_invalid hv]
  | valid d =>
    obtain ⟨rest, -, he⟩ := makeMove_of_valid hv
    rw [he]; rfl

theorem makeMoves_invariants (calls : List (Int × Int)) : ∀ (g : HanoiTowerGame) (c : Nat),
    Inv g → c ≤ movesNeeded g.numberOfDisks.toNat g.towers 1 + g.moveCount →
    Inv (makeMoves g calls) ∧ (makeMoves g calls).numberOfDisks = g.numberOfDisks ∧
      c ≤ movesNeeded (makeMoves g calls).numberOfDisks.toNat (makeMoves g calls).towers 1
        + (makeMoves g calls).moveCount := by
  induction calls with
  | nil => intro g c hi hp; exact ⟨hi, rfl, hp⟩
  | cons call calls ih =>
    intro g c hi hp
    obtain ⟨h1, h2, h3⟩ := ih (makeMove g call.1 call.2).2 c (inv_makeMove g _ _ hi)
      (potential_makeMove g hi _ _ c hp)
    exact ⟨h1, h2.trans (makeMove_numberOfDisks g _ _), h3⟩

theorem movesNeeded_initial (n : Int) :
    movesNeeded n.toNat ⟨descending n, [], []⟩ 1 = 2 ^ n.toNat - 1 := by
  rw [movesNeeded_all_on _ 0 (le_refl _) (by decide) n.toNat 1 _ (by decide) (by decide)]
  · rfl
  · intro x hx1 hxn
    unfold pegOf
    rw [if_pos ((mem_descending n x).mpr ⟨hx1, by omega⟩)]

theorem movesNeeded_complete (g : HanoiTowerGame) (hi : Inv g) (hc : g.isGameComplete = true) :
    movesNeeded g.numberOfDisks.toNat g.towers 1 = 0 := by
  obtain ⟨h1, h0, -⟩ := towers_of_complete g hi hc
  rw [movesNeeded_all_on _ 1 (by decide) (by decide) _ 1 _ (by decide) (by decide)]
  · rfl
  · intro x hx1 hxn
    unfold pegOf
    rw [h0, h1, if_neg (List.not_mem_nil x),
      if_pos ((mem_descending _ x).mpr ⟨hx1, by omega⟩)]

/-- C18: for every `N` in `[1,12]`, every prior state and every finite sequence
of `makeMove` calls (accepted or rejected) applied to the state produced by
`setNumberOfDisks(N)`: whenever `isGameComplete` is true, `bestScore` is
`2^N - 1` and `moveCount >= bestScore`; hence `extraMoves = moveCount -
bestScore` of the result analysis is not negative, the quotient
`bestScore / moveCount` is at most 1 and the efficiency at most 100 percent. -/
theorem C18_minimum_is_lower_bound (N : Int) (g0 : HanoiTowerGame) (calls : List (Int × Int))
    (h1 : 1 ≤ N) (h12 : N ≤ 12)
    (hc : (makeMoves (setNumberOfDisks g0 N).2 calls).isGameComplete = true) :
    (makeMoves (setNumberOfDisks g0 N).2 calls).bestScore = 2 ^ N.toNat - 1 ∧
      (makeMoves (setNumberOfDisks g0 N).2 calls).bestScore
        ≤ ((makeMoves (setNumberOfDisks g0 N).2 calls).moveCount : Int) ∧
      0 ≤ (displayGameResult (makeMoves (setNumberOfDisks g0 N).2 calls)).extraMoves ∧
      ((makeMoves (setNumberOfDisks g0 N).2 calls).bestScore : Rat)
        / ((makeMoves (setNumberOfDisks g0 N).2 calls).moveCount : Rat) ≤ 1 ∧
      (displayGameResult (makeMoves (setNumberOfDisks g0 N).2 calls)).efficiency ≤ 100 := by
  have hst := setNumberOfDisks_state g0 N h1 h12
  have hi0 : Inv (setNumberOfDisks g0 N).2 := by
    rw [hst, ← initializeGame_eq { g0 with numberOfDisks := N }]
    exact inv_initializeGame _ h1 h12
  have hp0 : 2 ^ N.toNat - 1 ≤
      movesNeeded (setNumberOfDisks g0 N).2.numberOfDisks.toNat (setNumberOfDisks g0 N).2.towers 1
        + (setNumberOfDisks g0 N).2.moveCount := by
    rw [hst]
    show 2 ^ N.toNat - 1 ≤ movesNeeded N.toNat ⟨descending N, [], []⟩ 1 + 0
    rw [movesNeeded_initial]
    omega
  obtain ⟨hi, hN, hp⟩ := makeMoves_invariants calls _ _ hi0 hp0
  rw [movesNeeded_complete _ hi hc, Nat.zero_add] at hp
  have hN1 : (makeMoves (setNumberOfDisks g0 N).2 calls).numberOfDisks = N := by
    rw [hN, hst]
  have hb : (makeMoves (setNumberOfDisks g0 N).2 calls).bestScore = 2 ^ N.toNat - 1 := by
    rw [hi.score, hN1]
    exact calculateMinimumMoves_of_pos N h1 (by omega)
  have hpow : (2 : Nat) ≤ 2 ^ N.toNat := by
    have e : N.toNat = (N - 1).toNat + 1 := by omega
    rw [e, pow_succ]
    have := Nat.one_le_two_pow (n := (N - 1).toNat)
    omega
  have hle : (makeMoves (setNumberOfDisks g0 N).2 calls).bestScore
      ≤ ((makeMoves (setNumberOfDisks g0 N).2 calls).moveCount : Int) := by
    rw [hb]
    have : ((2 ^ N.toNat - 1 : Nat) : Int)
        ≤ ((makeMoves (setNumberOfDisks g0 N).2 calls).moveCount : Int) := by
      exact_mod_cast hp
    rw [Nat.cast_sub (by omega)] at this
    push_cast at this
    exact this
  have hpos : (0 : Rat) < ((makeMoves (setNumberOfDisks g0 N).2 calls).moveCount : Rat) := by
    have : 0 < (makeMoves (setNumberOfDisks g0 N).2 calls).moveCount := by omega
    exact_mod_cast this
  have hq : ((makeMoves (setNumberOfDisks g0 N).2 calls).bestScore : Rat)
      / ((makeMoves (setNumberOfDisks g0 N).2 calls).moveCount : Rat) ≤ 1 := by
    rw [div_le_one hpos]
    exact_mod_cast hle
  refine ⟨hb, hle, ?_, hq, ?_⟩
  · show 0 ≤ ((makeMoves (setNumberOfDisks g0 N).2 calls).moveCount : Int)
      - (makeMoves (setNumberOfDisks g0 N).2 calls).bestScore
    omega
  · show ((makeMoves (setNumberOfDisks g0 N).2 calls).bestScore : Rat)
      / ((makeMoves (setNumberOfDisks g0 N).2 calls).moveCount : Rat) * 100 ≤ 100
    linarith

/-- Witness for C18: a 2-disk game completed in five calls, one of them
rejected and one a detour, so with four moves against the minimum of three. -/
theorem C18_minimum_is_lower_bound_witness :
    (makeMoves (setNumberOfDisks newGame 2).2 [(0, 1), (1, 2), (0, 0), (0, 1), (2, 1)]).moveCount
        = 4 ∧
      (makeMoves (setNumberOfDisks newGame 2).2
        [(0, 1), (1, 2), (0, 0), (0, 1), (2, 1)]).bestScore = 2 ^ (2 : Int).toNat - 1 ∧
      (makeMoves (setNumberOfDisks newGame 2).2 [(0, 1), (1, 2), (0, 0), (0, 1), (2, 1)]).bestScore
        ≤ ((makeMoves (setNumberOfDisks newGame 2).2
          [(0, 1), (1, 2), (0, 0), (0, 1), (2, 1)]).moveCount : Int) :=
  ⟨by decide,
    (C18_minimum_is_lower_bound 2 newGame [(0, 1), (1, 2), (0, 0), (0, 1), (2, 1)] (by decide)
      (by decide) (by decide)).1,
    (C18_minimum_is_lower_bound 2 newGame [(0, 1), (1, 2), (0, 0), (0, 1), (2, 1)] (by decide)
      (by decide) (by decide)).2.1⟩

end HanoiTower
